import Mathlib

/-!
Shallow embedding of the gemini-balance rate-limiting, payload-shaping and
response-handling code (files under `app/handler` and `app/service`), together
with theorems settling the frozen claims about its specification.

Conventions used throughout:
* Python `dict`s whose keys are strings are modelled as association lists
  `List (String × JVal)` with Python-`dict` update semantics (replace the
  existing binding, else append); keys stay unique when every map is built
  through `dictInsert`.
* Python exceptions are modelled by the enumeration `PyExn`.  A function that
  can raise returns its final state together with an `Option PyExn`
  (mutations performed before the `raise` are kept, as in CPython), or an
  `Except`/`Option` when the partial state is irrelevant.
* The monotonic clock (`time.monotonic()`) and the current day
  (`date.today().isoformat()`) are passed in as natural numbers `now`/`today`.
-/

/-- Python exception classes that the embedded code can raise.
`RequestTooLargeError` is a subclass of `RateLimitExceededError`
(app/exception/exceptions.py), so an `except RateLimitExceededError` clause
catches both constructors while `except RequestTooLargeError` catches only
`requestTooLarge`. -/
inductive PyExn where
  | rateLimitExceeded
  | requestTooLarge
  | attributeError
  | valueError
  deriving DecidableEq, Repr

/- ----------------------------------------------------------------------
ModelRateLimiter (app/handler/rate_limit_handler.py, lines 15-143).
The per-model entry of `self._limiters` is the dict
`{limit, window_seconds, window_start_time, token_count}`.
`token_count` is an integer in Python; we keep it as `Int` so that the
`max(0, ...)` clamp in `adjust_token_count` is visible.
---------------------------------------------------------------------- -/

/-- One per-model entry of `ModelRateLimiter._limiters`. -/
structure GlobalLimiter where
  limit : Nat
  windowSeconds : Nat
  windowStartTime : Nat
  tokenCount : Int
  deriving DecidableEq, Repr

/-- The window reset of lines 100-103: past the end of the window the
window restarts at `now` with a zero count. -/
def roll_window (lim : GlobalLimiter) (now : Nat) : GlobalLimiter :=
  if now > lim.windowStartTime + lim.windowSeconds then
    { lim with windowStartTime := now, tokenCount := 0 }
  else lim

/-- `ModelRateLimiter.reserve_tokens` (lines 80-116) for a model that has a
configured limiter: reject oversize requests, roll the window, then admit
the estimate only if it fits the remaining budget.  Returns the state after
the call together with the raised exception, if any.  Note line 91-94: when
`estimated_tokens > limit` the code raises plain `RateLimitExceededError`,
not `RequestTooLargeError`. -/
def reserve_tokens (lim : GlobalLimiter) (now est : Nat) :
    GlobalLimiter × Option PyExn :=
  if est > lim.limit then
    (lim, some .rateLimitExceeded)
  else
    if (roll_window lim now).tokenCount + est > ((roll_window lim now).limit : Int) then
      (roll_window lim now, some .rateLimitExceeded)
    else
      ({ roll_window lim now with
          tokenCount := (roll_window lim now).tokenCount + est }, none)

/-- `ModelRateLimiter.adjust_token_count` (lines 118-139) for a model that has
a configured limiter. -/
def adjust_token_count (lim : GlobalLimiter) (est actual : Nat) : GlobalLimiter :=
  if (actual : Int) - (est : Int) = 0 then lim
  else { lim with
    tokenCount := max 0 (lim.tokenCount + ((actual : Int) - (est : Int))) }

/- ----------------------------------------------------------------------
IndividualKeyRateLimiter (app/handler/rate_limit_handler.py, lines 146-312).
We project the two-level dicts `_limiters : {model: limits}` and
`_usage : {model: {api_key: usage}}` to one fixed model: `limits` becomes an
`Option KeyLimits` (none when the model has no configured caps) and the usage
map becomes an association list from the api key to its usage record.
---------------------------------------------------------------------- -/

/-- Validated per-model caps from `MODEL_KEY_LIMITS` (`_parse_config`,
lines 159-189); a missing entry means the cap is not configured. -/
structure KeyLimits where
  rpm : Option Nat
  tpm : Option Nat
  rpd : Option Nat
  deriving DecidableEq, Repr

/-- The per-key usage record created in `check_and_reserve` lines 210-216. -/
structure KeyUsage where
  rpmCount : Nat
  rpmWindowStart : Nat
  tpmCount : Nat
  rpdCount : Nat
  rpdDay : Nat
  deriving DecidableEq, Repr

/-- Usage map for one model: api key to usage record. -/
abbrev KeyUsageMap := List (String × KeyUsage)

/-- Association-list lookup (first binding wins, like a Python dict whose
keys are unique). -/
def assocGet (m : KeyUsageMap) (k : String) : Option KeyUsage :=
  match m with
  | [] => none
  | (k', v) :: rest => if k' = k then some v else assocGet rest k

/-- Association-list update: replace the binding of `k` if present, else
append it (Python dict assignment). -/
def assocSet (m : KeyUsageMap) (k : String) (v : KeyUsage) : KeyUsageMap :=
  match m with
  | [] => [(k, v)]
  | (k', v') :: rest =>
    if k' = k then (k, v) :: rest else (k', v') :: assocSet rest k v

/-- `IndividualKeyRateLimiter.check_and_reserve` (lines 191-269) at one model.
Returns the usage map after the call (window resets and first-use
initialisation are kept even when an exception is raised, because the Python
code mutates the dict in place before raising) and the raised exception.

The RPD branch (lines 251-258) evaluates `datetime.now()` before building the
`RateLimitExceededError`; inside this method the local import is
`from datetime import date, timedelta`, so the name `datetime` still denotes
the module imported at the top of the file, and `datetime.now()` raises
`AttributeError` (the module has no attribute `now`).  The branch therefore
raises `AttributeError`, never reaching its `raise RateLimitExceededError`. -/
def check_and_reserve (limits : Option KeyLimits) (usage : KeyUsageMap)
    (now today : Nat) (apiKey : String) (tokensToUse : Nat) :
    KeyUsageMap × Option PyExn :=
  match limits with
  | none => (usage, none)
  | some limits =>
    let u := (assocGet usage apiKey).getD
      { rpmCount := 0, rpmWindowStart := now, tpmCount := 0,
        rpdCount := 0, rpdDay := today }
    let u := if now ≥ u.rpmWindowStart + 60 then
      { u with rpmWindowStart := now, rpmCount := 0, tpmCount := 0 } else u
    let u := if u.rpdDay ≠ today then
      { u with rpdDay := today, rpdCount := 0 } else u
    if (match limits.rpm with
        | some r => decide (u.rpmCount ≥ r)
        | none => false) then
      (assocSet usage apiKey u, some .rateLimitExceeded)
    else if (match limits.tpm with
        | some t => decide (u.tpmCount + tokensToUse > t)
        | none => false) then
      (assocSet usage apiKey u, some .rateLimitExceeded)
    else if (match limits.rpd with
        | some d => decide (u.rpdCount ≥ d)
        | none => false) then
      (assocSet usage apiKey u, some .attributeError)
    else
      (assocSet usage apiKey
        { u with rpmCount := u.rpmCount + 1,
                 tpmCount := u.tpmCount + tokensToUse,
                 rpdCount := u.rpdCount + 1 }, none)

/-- `IndividualKeyRateLimiter.release` (lines 271-286) at one model.
`max(0, x - n)` on naturals is Lean's truncated subtraction. -/
def release (limits : Option KeyLimits) (usage : KeyUsageMap)
    (apiKey : String) (tokensToRelease : Nat) : KeyUsageMap :=
  match limits with
  | none => usage
  | some _ =>
    match assocGet usage apiKey with
    | none => usage
    | some u =>
      assocSet usage apiKey
        { u with rpmCount := u.rpmCount - 1,
                 tpmCount := u.tpmCount - tokensToRelease,
                 rpdCount := u.rpdCount - 1 }

/-- `IndividualKeyRateLimiter.update_token_usage` (lines 288-308) at one
model. -/
def update_token_usage (limits : Option KeyLimits) (usage : KeyUsageMap)
    (apiKey : String) (reservedTokens actualTokens : Nat) : KeyUsageMap :=
  match limits with
  | none => usage
  | some limits =>
    match limits.tpm with
    | none => usage
    | some _ =>
      let delta : Int := (actualTokens : Int) - (reservedTokens : Int)
      if delta = 0 then usage
      else
        match assocGet usage apiKey with
        | none => usage
        | some u =>
          assocSet usage apiKey
            { u with tpmCount := (max 0 ((u.tpmCount : Int) + delta)).toNat }

/- ----------------------------------------------------------------------
GeminiChatService._select_key_and_apply_rate_limits
(app/service/chat/gemini_chat_service.py, lines 287-342).
`get_next_working_key` lives in the key manager, which is outside the
embedded sources; the loop's behaviour does not depend on its policy, so it
is passed in as an abstract rotation function `nextKey`.
---------------------------------------------------------------------- -/

/-- The loop state of `_select_key_and_apply_rate_limits`: the candidate key,
the set of keys already tried (`tried_keys`), the per-key usage map and the
global limiter for the requested model.  `attempts` records, in order, the
keys on which the body of the `try` block ran (it is a ghost field used to
observe rotation). -/
structure SelState where
  apiKey : String
  tried : List String
  usage : KeyUsageMap
  glob : GlobalLimiter
  attempts : List String
  deriving DecidableEq, Repr

/-- Result of one iteration of the selection loop. -/
inductive SelStep where
  | more (s : SelState)
  | selected (s : SelState)
  | raised (e : PyExn) (s : SelState)
  deriving DecidableEq, Repr

/-- One iteration of the `for _ in range(number_of_keys)` loop
(lines 302-337).  The `except RequestTooLargeError` clause re-raises
immediately; the `except RateLimitExceededError` clause rotates to the next
key; any other exception (such as the `AttributeError` escaping
`check_and_reserve`) is not caught and propagates out of the loop. -/
def select_key_step (nextKey : String → String) (limits : Option KeyLimits)
    (now today est : Nat) (s : SelState) : SelStep :=
  if s.apiKey ∈ s.tried then
    .more { s with apiKey := nextKey s.apiKey }
  else
    let s := { s with tried := s.tried ++ [s.apiKey],
                      attempts := s.attempts ++ [s.apiKey] }
    match check_and_reserve limits s.usage now today s.apiKey est with
    | (usage', some .rateLimitExceeded) =>
      .more { s with usage := usage', apiKey := nextKey s.apiKey }
    | (usage', some .requestTooLarge) =>
      .raised .requestTooLarge { s with usage := usage' }
    | (usage', some e) =>
      .raised e { s with usage := usage' }
    | (usage', none) =>
      let s := { s with usage := usage' }
      match reserve_tokens s.glob now est with
      | (glob', some .requestTooLarge) =>
        .raised .requestTooLarge { s with glob := glob' }
      | (glob', some .rateLimitExceeded) =>
        .more { s with glob := glob', apiKey := nextKey s.apiKey }
      | (glob', some e) =>
        .raised e { s with glob := glob' }
      | (glob', none) =>
        .selected { s with glob := glob' }

/-- Final result of `_select_key_and_apply_rate_limits`. -/
inductive SelResult where
  | selected (s : SelState)
  | raised (e : PyExn) (s : SelState)
  deriving DecidableEq, Repr

/-- The selection loop, run for `fuel = number_of_keys` iterations; when the
loop completes without returning, line 340 raises the final
`RateLimitExceededError` ("All available API keys are currently
rate-limited"). -/
def select_key_loop (nextKey : String → String) (limits : Option KeyLimits)
    (now today est : Nat) : Nat → SelState → SelResult
  | 0, s => .raised .rateLimitExceeded s
  | fuel + 1, s =>
    match select_key_step nextKey limits now today est s with
    | .more s' => select_key_loop nextKey limits now today est fuel s'
    | .selected s' => .selected s'
    | .raised e s' => .raised e s'

/-- `_select_key_and_apply_rate_limits` for a non-empty key pool:
`numberOfKeys` is `len(self.key_manager.api_keys)` and `initialApiKey` the
key passed in by the caller. -/
def select_key_and_apply_rate_limits (nextKey : String → String)
    (limits : Option KeyLimits) (usage : KeyUsageMap) (glob : GlobalLimiter)
    (now today est numberOfKeys : Nat) (initialApiKey : String) : SelResult :=
  select_key_loop nextKey limits now today est numberOfKeys
    { apiKey := initialApiKey, tried := [], usage := usage, glob := glob,
      attempts := [] }

/- ----------------------------------------------------------------------
Failure handling of the chat calls (C4): whether the per-key reservation is
released when the upstream call fails.
---------------------------------------------------------------------- -/

/-- Python's substring test `needle in haystack`. -/
def strIn (needle haystack : String) : Bool :=
  decide (needle.data <:+: haystack.data)

/-- The test performed in `stream_generate_content`
(gemini_chat_service.py lines 556-559) and `_handle_normal_completion`
(openai_compatiable_service.py lines 118-121): an upstream 429 whose message
contains the provider's quota-exhausted phrase. -/
def is_resource_exhausted_error (statusCode : Nat) (errorLogMsg : String) : Bool :=
  statusCode = 429 && strIn "Resource has been exhausted" errorLogMsg

/-- Effect of the `except` branch of `GeminiChatService.generate_content`
(gemini_chat_service.py lines 370-372) on the per-key usage map: the
reservation is released unconditionally, before any inspection of the
failure. -/
def gemini_unary_failure_release (limits : Option KeyLimits)
    (usage : KeyUsageMap) (apiKey : String) (estimatedTokens : Nat)
    (_statusCode : Nat) (_errorLogMsg : String) : KeyUsageMap :=
  release limits usage apiKey estimatedTokens

/-- Effect of the `except` branch of
`GeminiChatService.stream_generate_content` (lines 543-563) on the per-key
usage map: the reservation is released only when the failure is not an
upstream quota-exhausted 429. -/
def gemini_stream_failure_release (limits : Option KeyLimits)
    (usage : KeyUsageMap) (apiKey : String) (estimatedTokens : Nat)
    (statusCode : Nat) (errorLogMsg : String) : KeyUsageMap :=
  if is_resource_exhausted_error statusCode errorLogMsg then usage
  else release limits usage apiKey estimatedTokens

/-- Effect of the `except` branch of
`OpenAICompatiableService._handle_normal_completion`
(openai_compatiable_service.py lines 111-125) on the per-key usage map. -/
def compat_unary_failure_release (limits : Option KeyLimits)
    (usage : KeyUsageMap) (apiKey : String) (estimatedTokens : Nat)
    (statusCode : Nat) (errorLogMsg : String) : KeyUsageMap :=
  if is_resource_exhausted_error statusCode errorLogMsg then usage
  else release limits usage apiKey estimatedTokens

/-- Effect of the `except` branch of
`OpenAICompatiableService._handle_stream_completion` (lines 194-195):
unconditional release. -/
def compat_stream_failure_release (limits : Option KeyLimits)
    (usage : KeyUsageMap) (apiKey : String) (estimatedTokens : Nat)
    (_statusCode : Nat) (_errorLogMsg : String) : KeyUsageMap :=
  release limits usage apiKey estimatedTokens

/-- Effect of the `except` branch of
`OpenAIChatService._handle_normal_completion`
(openai_chat_service.py lines 377-379): unconditional release. -/
def openai_unary_failure_release (limits : Option KeyLimits)
    (usage : KeyUsageMap) (apiKey : String) (estimatedTokens : Nat)
    (_statusCode : Nat) (_errorLogMsg : String) : KeyUsageMap :=
  release limits usage apiKey estimatedTokens

/- ----------------------------------------------------------------------
JSON-like values: the payload dicts handled by the services are arbitrary
JSON trees.
---------------------------------------------------------------------- -/

/-- A JSON value (Python dicts, lists, strings, numbers, booleans, None). -/
inductive JVal where
  | null
  | bool (b : Bool)
  | num (n : Int)
  | str (s : String)
  | arr (xs : List JVal)
  | obj (fields : List (String × JVal))
  deriving Repr

/-- A Python dict with string keys. -/
abbrev JDict := List (String × JVal)

/-- `d.get(k)` / `d[k]` on a dict with unique keys. -/
def dictGet (d : JDict) (k : String) : Option JVal :=
  match d with
  | [] => none
  | (k', v) :: rest => if k' = k then some v else dictGet rest k

/-- `d[k] = v`: replace the binding of `k` if present, else append. -/
def dictInsert (d : JDict) (k : String) (v : JVal) : JDict :=
  match d with
  | [] => [(k, v)]
  | (k', v') :: rest =>
    if k' = k then (k, v) :: rest else (k', v') :: dictInsert rest k v

/-- `d.pop(k, None)`: remove the binding of `k`. -/
def dictPop (d : JDict) (k : String) : JDict :=
  d.filter (fun p => p.1 ≠ k)

/-- Python truthiness of a JSON value (`if v:`). -/
def jTruthy : JVal → Bool
  | .null => false
  | .bool b => b
  | .num n => decide (n ≠ 0)
  | .str s => decide (s ≠ "")
  | .arr xs => !xs.isEmpty
  | .obj fields => !fields.isEmpty

/- ----------------------------------------------------------------------
estimate_payload_tokens (app/utils/helpers.py, lines 192-256).

The Python function accumulates, per text, `chinese_chars + other_chars / 4.0`
into one float and finally returns `max(int(total_tokens), 1)`.  Every
partial sum is an integer multiple of 1/4 and is represented exactly in
binary floating point (for any payload far below 2^50 characters), and
`int(x)` truncates toward zero, i.e. floors the nonnegative total.  We
therefore count in quarter-token units (a CJK character contributes 4
quarters, any other character 1 quarter) and divide the grand total by 4 at
the end with natural-number (floor) division.

The traversal of `messages[*].content` list parts evaluates
`part.get("type")` without an `isinstance(part, dict)` guard (line 253), so a
non-dict part raises `AttributeError`; similarly `request_item.get("content",
{})` followed by `content.get("parts", [])` (line 240-241) raises when the
`content` value is not a dict.  Those two spots make the function partial:
we return `none` there.
---------------------------------------------------------------------- -/

/-- The CJK test of line 213: `"一" <= char <= "鿿"`. -/
def is_cjk (c : Char) : Bool :=
  0x4e00 ≤ c.toNat && c.toNat ≤ 0x9fff

/-- `count_tokens_for_text` in quarter-token units: 4 quarters per CJK
character, 1 quarter per other character. -/
def textQuarters (s : String) : Nat :=
  s.data.foldl (fun acc c => acc + (if is_cjk c then 4 else 1)) 0

/-- `extract_text_from_parts` (lines 221-226) in quarter-token units: only
dict parts whose `"text"` value is a string contribute. -/
def partsListQuarters : List JVal → Nat
  | [] => 0
  | p :: ps =>
    (match p with
     | .obj f =>
       match dictGet f "text" with
       | some (.str t) => textQuarters t
       | _ => 0
     | _ => 0) + partsListQuarters ps

/-- `extract_text_from_parts` on an arbitrary value: a non-list argument is
ignored (`if not isinstance(parts, list): return`). -/
def partsValQuarters : JVal → Nat
  | .arr ps => partsListQuarters ps
  | _ => 0

/-- The `contents` section (lines 229-233): non-dict items are skipped and a
missing `"parts"` key defaults to `[]`. -/
def contentsListQuarters : List JVal → Nat
  | [] => 0
  | item :: rest =>
    (match item with
     | .obj f => partsValQuarters ((dictGet f "parts").getD (.arr []))
     | _ => 0) + contentsListQuarters rest

/-- The `contents` section on the looked-up value. -/
def contentsQuarters : Option JVal → Nat
  | some (.arr items) => contentsListQuarters items
  | _ => 0

/-- The `requests` section (lines 236-241): `request_item.get("content", {})`
defaults to `{}`, and calling `.get("parts", [])` on a non-dict `content`
raises `AttributeError` (`none`). -/
def requestsListQuarters : List JVal → Option Nat
  | [] => some 0
  | item :: rest =>
    match item with
    | .obj f =>
      match (dictGet f "content").getD (.obj []) with
      | .obj cf => do
        let r ← requestsListQuarters rest
        pure (partsValQuarters ((dictGet cf "parts").getD (.arr [])) + r)
      | _ => none
    | _ => requestsListQuarters rest

/-- The `requests` section on the looked-up value. -/
def requestsQuarters : Option JVal → Option Nat
  | some (.arr items) => requestsListQuarters items
  | _ => some 0

/-- The multimodal message-content loop (lines 251-254): `part.get("type")`
raises `AttributeError` on a non-dict part (`none`); a dict part contributes
only when its `"type"` is `"text"` and its `"text"` is a string. -/
def msgPartsQuarters : List JVal → Option Nat
  | [] => some 0
  | p :: ps =>
    match p with
    | .obj f => do
      let r ← msgPartsQuarters ps
      pure ((if (match dictGet f "type" with
                 | some (.str ty) => decide (ty = "text")
                 | _ => false) then
               match dictGet f "text" with
               | some (.str t) => textQuarters t
               | _ => 0
             else 0) + r)
    | _ => none

/-- The `messages` section (lines 244-254): a string content counts directly,
a list content goes through the multimodal loop, anything else is skipped. -/
def messagesListQuarters : List JVal → Option Nat
  | [] => some 0
  | m :: rest =>
    match m with
    | .obj f =>
      match dictGet f "content" with
      | some (.str s) => do
        let r ← messagesListQuarters rest
        pure (textQuarters s + r)
      | some (.arr ps) => do
        let q ← msgPartsQuarters ps
        let r ← messagesListQuarters rest
        pure (q + r)
      | _ => messagesListQuarters rest
    | _ => messagesListQuarters rest

/-- The `messages` section on the looked-up value. -/
def messagesQuarters : Option JVal → Option Nat
  | some (.arr items) => messagesListQuarters items
  | _ => some 0

/-- `estimate_payload_tokens` (lines 192-256): the three sections are summed
in quarter-token units and the result is `max(int(total), 1)`. -/
def estimate_payload_tokens (payload : JDict) : Option Nat := do
  let q1 := contentsQuarters (dictGet payload "contents")
  let q2 ← requestsQuarters (dictGet payload "requests")
  let q3 ← messagesQuarters (dictGet payload "messages")
  pure (max ((q1 + q2 + q3) / 4) 1)

/- ----------------------------------------------------------------------
Specification side of C6: the flattened list of text-bearing fields and the
closed-form token count.
---------------------------------------------------------------------- -/

/-- Texts of a `parts` list: the `"text"` string fields of its dict items. -/
def specPartsTexts (parts : List JVal) : List String :=
  parts.foldr (fun p acc =>
    match p with
    | .obj f =>
      match dictGet f "text" with
      | some (.str t) => t :: acc
      | _ => acc
    | _ => acc) []

/-- Texts of a parts value (non-lists carry no text). -/
def specPartsValTexts : JVal → List String
  | .arr ps => specPartsTexts ps
  | _ => []

/-- Texts contributed by one `contents` item. -/
def specContentTexts (item : JVal) : List String :=
  match item with
  | .obj f => specPartsValTexts ((dictGet f "parts").getD (.arr []))
  | _ => []

/-- Texts of the `contents` section. -/
def specContentsTexts : Option JVal → List String
  | some (.arr items) => items.foldr (fun item acc => specContentTexts item ++ acc) []
  | _ => []

/-- Texts contributed by one `requests` item. -/
def specRequestTexts (item : JVal) : List String :=
  match item with
  | .obj f =>
    match (dictGet f "content").getD (.obj []) with
    | .obj cf => specPartsValTexts ((dictGet cf "parts").getD (.arr []))
    | _ => []
  | _ => []

/-- Texts of the `requests` section. -/
def specRequestsTexts : Option JVal → List String
  | some (.arr items) => items.foldr (fun item acc => specRequestTexts item ++ acc) []
  | _ => []

/-- Texts of the `{type: "text", text}` parts of a multimodal message. -/
def specMsgPartsTexts (ps : List JVal) : List String :=
  ps.foldr (fun p acc =>
    (match p with
     | .obj pf =>
       if (match dictGet pf "type" with
           | some (.str ty) => decide (ty = "text")
           | _ => false) then
         match dictGet pf "text" with
         | some (.str t) => [t]
         | _ => []
       else []
     | _ => []) ++ acc) []

/-- Texts contributed by one `messages` item. -/
def specMessageTexts (m : JVal) : List String :=
  match m with
  | .obj f =>
    match dictGet f "content" with
    | some (.str s) => [s]
    | some (.arr ps) => specMsgPartsTexts ps
    | _ => []
  | _ => []

/-- Texts of the `messages` section. -/
def specMessagesTexts : Option JVal → List String
  | some (.arr items) => items.foldr (fun m acc => specMessageTexts m ++ acc) []
  | _ => []

/-- All text-bearing fields of a payload, in traversal order:
`contents[*].parts[*].text`, then `requests[*].content.parts[*].text`, then
`messages[*].content` (as a string or as its `{type: "text", text}` parts). -/
def specTexts (payload : JDict) : List String :=
  specContentsTexts (dictGet payload "contents") ++
  specRequestsTexts (dictGet payload "requests") ++
  specMessagesTexts (dictGet payload "messages")

/-- Number of CJK characters (U+4E00..U+9FFF) of a string. -/
def cjkCount (s : String) : Nat := (s.data.filter is_cjk).length

/-- Number of non-CJK characters of a string. -/
def otherCount (s : String) : Nat := (s.data.filter (fun c => !is_cjk c)).length

/-- `⌊S⌋` of the claim: `S` sums one token per CJK character and a quarter
token per other character over every text-bearing field; in quarter units
`⌊S⌋ = (Σ (4·cjk + other)) / 4`. -/
def specFloorS (payload : JDict) : Nat :=
  (((specTexts payload).map (fun t => 4 * cjkCount t + otherCount t)).sum) / 4

/-- Well-formed `requests` items: every dict item has a dict (or absent)
`content`. -/
def shapedRequestsItems (items : List JVal) : Bool :=
  items.all (fun item =>
    match item with
    | .obj f =>
      match (dictGet f "content").getD (.obj []) with
      | .obj _ => true
      | _ => false
    | _ => true)

/-- Well-formed `messages` items: every list content of a dict item
consists of dict parts. -/
def shapedMessagesItems (items : List JVal) : Bool :=
  items.all (fun m =>
    match m with
    | .obj f =>
      match dictGet f "content" with
      | some (.arr ps) => ps.all (fun p => match p with | .obj _ => true | _ => false)
      | _ => true
    | _ => true)

/-- Well-formedness of the two spots where the estimator can raise.
Payloads of either dialect shape satisfy this. -/
def dialect_shaped (payload : JDict) : Bool :=
  (match dictGet payload "requests" with
   | some (.arr items) => shapedRequestsItems items
   | _ => true) &&
  (match dictGet payload "messages" with
   | some (.arr items) => shapedMessagesItems items
   | _ => true)

/- ----------------------------------------------------------------------
_get_real_model (gemini_chat_service.py lines 179-188; the identical function
appears in openai_chat_service.py lines 172-181).  Model names are the
character lists of Python strings; `model[:-n]` is `take (length - n)`.
---------------------------------------------------------------------- -/

/-- Line 180-181: `if model.endswith("-search"): model = model[:-7]`. -/
def strip_search (model : List Char) : List Char :=
  if "-search".data <:+ model then model.take (model.length - 7) else model

/-- Line 182-183: strip a trailing `"-image"`. -/
def strip_image (model : List Char) : List Char :=
  if "-image".data <:+ model then model.take (model.length - 6) else model

/-- Line 184-185: strip a trailing `"-non-thinking"`. -/
def strip_non_thinking (model : List Char) : List Char :=
  if "-non-thinking".data <:+ model then model.take (model.length - 13) else model

/-- Lines 186-187: when both `"-search"` and `"-non-thinking"` still occur
anywhere in the (already stripped) name, drop its last 20 characters. -/
def strip_combined (model : List Char) : List Char :=
  if "-search".data <:+: model ∧ "-non-thinking".data <:+: model then
    model.take (model.length - 20)
  else model

/-- `_get_real_model`: the four sequential reassignments, i.e. the
composition of the four conditional strips. -/
def get_real_model (model : List Char) : List Char :=
  strip_combined (strip_non_thinking (strip_image (strip_search model)))

/- ----------------------------------------------------------------------
Python operation helpers for values that are not statically known to be
dicts or lists: `x in v`, `v[k]`, `for x in v`.  They return `none` when the
operation raises (`TypeError` / `KeyError`).
---------------------------------------------------------------------- -/

/-- Python `needle in v`: key membership for dicts, element equality for
lists, substring test for strings; `TypeError` otherwise. -/
def pyContains (needle : String) : JVal → Option Bool
  | .obj f => some (dictGet f needle).isSome
  | .arr xs => some (xs.any (fun x => match x with
      | .str s => decide (s = needle)
      | _ => false))
  | .str s => some (strIn needle s)
  | _ => none

/-- Python `v[k]` with a string key: field access on dicts (`none` is a
`KeyError`); `TypeError` on anything else. -/
def pySubscript (v : JVal) (k : String) : Option JVal :=
  match v with
  | .obj f => dictGet f k
  | _ => none

/-- Python `for x in v`: lists yield their elements, strings their
characters, dicts their keys; `TypeError` otherwise. -/
def pyIter : JVal → Option (List JVal)
  | .arr xs => some xs
  | .str s => some (s.data.map (fun c => .str (String.mk [c])))
  | .obj f => some (f.map (fun p => .str p.1))
  | _ => none

mutual

/-- Structural boolean equality of JSON values, used where Python compares
values with `==` or tests set membership (the compared values in the
embedded code are strings or `None`; dict-order and bool/int coercion
subtleties of Python `==` do not arise there). -/
def jBEq : JVal → JVal → Bool
  | .null, .null => true
  | .bool a, .bool b => a == b
  | .num a, .num b => a == b
  | .str a, .str b => a == b
  | .arr a, .arr b => jBEqList a b
  | .obj a, .obj b => jBEqFields a b
  | _, _ => false

/-- Boolean equality of JSON lists. -/
def jBEqList : List JVal → List JVal → Bool
  | [], [] => true
  | x :: xs, y :: ys => jBEq x y && jBEqList xs ys
  | _, _ => false

/-- Boolean equality of JSON object field lists. -/
def jBEqFields : List (String × JVal) → List (String × JVal) → Bool
  | [], [] => true
  | (k, v) :: xs, (k', v') :: ys => k == k' && jBEq v v' && jBEqFields xs ys
  | _, _ => false

end

/- ----------------------------------------------------------------------
_clean_json_schema_properties (gemini_chat_service.py lines 49-89; the same
function appears in openai_chat_service.py lines 57-97).
---------------------------------------------------------------------- -/

/-- The JSON-Schema fields Gemini does not support (lines 55-76). -/
def unsupportedSchemaFields : List String :=
  ["exclusiveMaximum", "exclusiveMinimum", "const", "examples",
   "contentEncoding", "contentMediaType", "if", "then", "else",
   "allOf", "anyOf", "oneOf", "not", "definitions", "$schema", "$id",
   "$ref", "$comment", "readOnly", "writeOnly"]

mutual

/-- `_clean_json_schema_properties`: non-dicts are returned unchanged. -/
def clean_json_schema_properties : JVal → JVal
  | .obj fields => .obj (cleanSchemaFields fields)
  | v => v

/-- The dict loop of `_clean_json_schema_properties`: unsupported keys are
dropped, dict values are cleaned recursively, list values item-wise. -/
def cleanSchemaFields : List (String × JVal) → List (String × JVal)
  | [] => []
  | (k, v) :: rest =>
    if k ∈ unsupportedSchemaFields then cleanSchemaFields rest
    else
      (k, match v with
          | .obj f => .obj (cleanSchemaFields f)
          | .arr xs => .arr (cleanSchemaList xs)
          | v => v) :: cleanSchemaFields rest

/-- Item-wise cleaning of a list value. -/
def cleanSchemaList : List JVal → List JVal
  | [] => []
  | x :: xs => clean_json_schema_properties x :: cleanSchemaList xs

end

/- ----------------------------------------------------------------------
_build_tools of the Gemini dialect (gemini_chat_service.py lines 92-176).
The relevant configuration flags are passed in as `GSettings`.
---------------------------------------------------------------------- -/

/-- Configuration read by the payload shapers. -/
structure GSettings where
  toolsCodeExecutionEnabled : Bool
  urlContextEnabled : Bool
  urlContextModels : List (List Char)
  deriving DecidableEq, Repr

/-- `_has_function_call` (lines 95-108): fully guarded by `isinstance`
checks, hence total. -/
def has_function_call : JVal → Bool
  | .arr contents => contents.any (fun content =>
      match content with
      | .obj f =>
        match dictGet f "parts" with
        | some (.arr parts) =>
          parts.any (fun part => match part with
            | .obj pf => (dictGet pf "functionCall").isSome
            | _ => false)
        | _ => false
      | _ => false)
  | _ => false

/-- `_has_image_parts` (lines 39-46, also `_has_media_parts` in
openai_chat_service.py lines 47-54): no `isinstance` guards, so iterating a
non-iterable or subscripting a non-dict raises (`none`); a found part
returns `True` immediately. -/
def has_image_parts (contents : JVal) : Option Bool := do
  let items ← pyIter contents
  items.foldlM (fun found content => do
    if found then pure true
    else do
      let hp ← pyContains "parts" content
      if hp then do
        let parts ← pySubscript content "parts"
        let ps ← pyIter parts
        ps.foldlM (fun fnd part => do
          if fnd then pure true
          else do
            let a ← pyContains "image_url" part
            if a then pure true else pyContains "inline_data" part) false
      else pure false) false

/-- One binding `record[k] = v` of the inner loop of `_merge_tools`
(lines 116-130): a truthy-list `functionDeclarations` value is cleaned and
appended to the accumulated declarations, every other binding overwrites.
`none` models the `AttributeError` of `.extend` when an earlier overwrite
left a non-list under `functionDeclarations`. -/
def merge_binding (record : JDict) (k : String) (v : JVal) : Option JDict :=
  if k = "functionDeclarations" then
    match v with
    | .arr vs =>
      if vs.isEmpty then some (dictInsert record k v)
      else
        match (dictGet record "functionDeclarations").getD (.arr []) with
        | .arr functions =>
          some (dictInsert record "functionDeclarations"
            (.arr (functions ++ vs.map clean_json_schema_properties)))
        | _ => none
    | _ => some (dictInsert record k v)
  else some (dictInsert record k v)

/-- The inner loop of `_merge_tools` over the bindings of one item. -/
def merge_fields (record : JDict) : List (String × JVal) → Option JDict
  | [] => some record
  | kv :: rest => do
    let record' ← merge_binding record kv.1 kv.2
    merge_fields record' rest

/-- The outer loop of `_merge_tools`: falsy or non-dict items are skipped. -/
def merge_items (record : JDict) : List JVal → Option JDict
  | [] => some record
  | item :: rest =>
    match item with
    | .obj fields =>
      if fields.isEmpty then merge_items record rest
      else do
        let record' ← merge_fields record fields
        merge_items record' rest
    | _ => merge_items record rest

/-- `_merge_tools` (lines 110-131). -/
def merge_tools (items : List JVal) : Option JDict :=
  merge_items [] items

/-- `_is_structured_output_request` (lines 133-139): the
`AttributeError`/`TypeError` of `.get` on a non-dict `generationConfig` is
caught and yields `False`. -/
def is_structured_output_request (payload : JDict) : Bool :=
  match dictGet payload "generationConfig" with
  | some (.obj gc) =>
    match dictGet gc "responseMimeType" with
    | some (.str s) => decide (s = "application/json")
    | _ => false
  | _ => false

/-- The `tools` items to merge (lines 142-147): a truthy dict is wrapped in
a one-element list; a truthy list is taken as is; anything else merges
nothing. -/
def toolItems (payload : JDict) : List JVal :=
  match dictGet payload "tools" with
  | some (.obj f) => if f.isEmpty then [] else [.obj f]
  | some (.arr xs) => if xs.isEmpty then [] else xs
  | _ => []

/-- The merging of client-supplied tools into the fresh `tool` record
(lines 141-147): `tool.update(_merge_tools(items))` on an empty `tool`. -/
def geminiMergeStage (payload : JDict) : Option JDict :=
  match toolItems payload with
  | [] => some []
  | items => merge_tools items

/-- The stages of `_build_tools` of the Gemini dialect before the final
function-calling pop (lines 141-166): merge the client tools, then — unless
the request asks for structured JSON output — add the built-in
`codeExecution`, `googleSearch` and `urlContext` tools when configured.
`none` models an exception escaping the build (from `_merge_tools` or
`_has_image_parts`). -/
def gemini_build_tools_prepop (st : GSettings) (model : List Char)
    (payload : JDict) : Option JDict := do
  let tool ← geminiMergeStage payload
  if is_structured_output_request payload then pure tool
  else do
    let tool ←
      if st.toolsCodeExecutionEnabled
          && !(decide ("-search".data <:+ model) || decide ("-thinking".data <:+: model)) then do
        let imgs ← has_image_parts ((dictGet payload "contents").getD (.arr []))
        if imgs then pure tool else pure (dictInsert tool "codeExecution" (.obj []))
      else pure tool
    let tool := if "-search".data <:+ model then
      dictInsert tool "googleSearch" (.obj []) else tool
    let tool := if get_real_model model ∈ st.urlContextModels && st.urlContextEnabled then
      dictInsert tool "urlContext" (.obj []) else tool
    pure tool

/-- The guard of the final pop (line 169): a truthy accumulated
`functionDeclarations` or a `functionCall` part anywhere in the history. -/
def gemini_pop_cond (payload : JDict) (tool : JDict) : Bool :=
  jTruthy ((dictGet tool "functionDeclarations").getD .null)
    || has_function_call ((dictGet payload "contents").getD (.arr []))

/-- `_build_tools` of the Gemini dialect (lines 92-176), producing the
`tool` record before the final `[tool] if tool else []` wrapping: the
pre-pop stages followed by the pop of the three built-in tools when
function calling is in play (lines 168-174). -/
def gemini_build_tools (st : GSettings) (model : List Char) (payload : JDict) :
    Option JDict :=
  (gemini_build_tools_prepop st model payload).map (fun tool =>
    if gemini_pop_cond payload tool then
      dictPop (dictPop (dictPop tool "googleSearch") "codeExecution") "urlContext"
    else tool)

/-- The returned list `[tool] if tool else []` (line 176). -/
def gemini_build_tools_result (st : GSettings) (model : List Char)
    (payload : JDict) : Option (List JVal) :=
  (gemini_build_tools st model payload).map (fun tool =>
    if tool.isEmpty then [] else [.obj tool])

/- ----------------------------------------------------------------------
_build_tools of the OpenAI dialect (openai_chat_service.py lines 100-169).
`request.tools` is passed as `reqTools` (the pydantic field, `none` when the
request carries no tools) and `messages` are the converted Gemini-format
contents handed to the function.
---------------------------------------------------------------------- -/

/-- `_has_media_parts` (openai_chat_service.py lines 47-54): textually the
same loop as `_has_image_parts`. -/
def has_media_parts (messages : JVal) : Option Bool :=
  has_image_parts messages

/-- The per-item processing of `request.tools` (lines 131-146): only truthy
dict items of type `"function"` with a truthy `function` value contribute;
an empty-properties object `parameters` is dropped; the declaration is then
schema-cleaned.  `none` models the `AttributeError` of `.get` on a non-dict
`function` or `parameters`. -/
def openaiFunctionDeclarations (items : List JVal) : Option (List JVal) :=
  items.foldlM (fun acc item =>
    match item with
    | .obj f =>
      if f.isEmpty then pure acc
      else
        if (match dictGet f "type" with
            | some (.str t) => decide (t = "function")
            | _ => false)
            && jTruthy ((dictGet f "function").getD .null) then
          match (dictGet f "function").getD .null with
          | .obj ff => do
            let parameters := (dictGet ff "parameters").getD (.obj [])
            let ff ← (match parameters with
              | .obj pf =>
                if (match dictGet pf "type" with
                    | some (.str t) => decide (t = "object")
                    | _ => false)
                    && !jTruthy ((dictGet pf "properties").getD (.obj [])) then
                  pure (dictPop ff "parameters")
                else pure ff
              | _ => none)
            pure (acc ++ [clean_json_schema_properties (.obj ff)])
          | _ => none
        else pure acc
    | _ => pure acc) []

/-- The de-duplication loop of lines 148-161: declarations are deduplicated
by their `name` value; a declaration named `"googleSearch"` instead turns on
the built-in google search tool.  Returns the final `functions` list and
whether the `googleSearch` built-in was requested this way. -/
def dedupeFunctionDeclarations (fds : List JVal) : List JVal × Bool :=
  let step := fds.foldl (fun (st : List (Option JVal) × List JVal × Bool) fc =>
    let names := st.1
    let nm := match fc with
              | .obj f => dictGet f "name"
              | _ => none
    if names.any (fun n => match n, nm with
        | none, none => true
        | some a, some b => jBEq a b
        | _, _ => false) then st
    else
      if (match nm with
          | some (.str s) => decide (s = "googleSearch")
          | _ => false) then
        (names, st.2.1, true)
      else
        (names ++ [nm], st.2.1 ++ [fc], st.2.2)) ([], [], false)
  (step.2.1, step.2.2)

/-- `_build_tools` of the OpenAI dialect (lines 100-169), producing the
`tool` record before the final `[tool] if tool else []` wrapping.  Note that
the final pop (lines 163-167) is guarded only by
`tool.get("functionDeclarations")`; unlike the Gemini dialect there is no
`_has_function_call` test on the history. -/
def openai_build_tools_prepop (st : GSettings) (model : List Char)
    (reqTools : Option JVal) (messages : JVal) : Option JDict := do
  let tool : JDict := []
  let condCodeExec := st.toolsCodeExecutionEnabled
      && !(decide ("-search".data <:+ model) || decide ("-thinking".data <:+: model)
           || decide ("-image".data <:+ model)
           || decide ("-image-generation".data <:+ model))
  let tool ←
    if condCodeExec then do
      let m ← has_media_parts messages
      if !m then pure (dictInsert tool "codeExecution" (.obj []))
      else do
        -- the `elif _has_media_parts(messages)` guard re-evaluates the test
        let _ ← has_media_parts messages
        pure tool
    else do
      let _ ← has_media_parts messages
      pure tool
  let tool := if "-search".data <:+ model then
    dictInsert tool "googleSearch" (.obj []) else tool
  let tool := if get_real_model model ∈ st.urlContextModels && st.urlContextEnabled then
    dictInsert tool "urlContext" (.obj []) else tool
  if jTruthy ((reqTools.getD .null)) then
    match reqTools.getD .null with
    | .arr items => do
      let fds ← openaiFunctionDeclarations items
      if !fds.isEmpty then
        let (functions, wantsSearch) := dedupeFunctionDeclarations fds
        let tool := if wantsSearch then dictInsert tool "googleSearch" (.obj []) else tool
        pure (dictInsert tool "functionDeclarations" (.arr functions))
      else pure tool
    | _ => none
  else pure tool

/-- `_build_tools` of the OpenAI dialect: the pre-pop stages followed by the
final pop, whose guard is only `tool.get("functionDeclarations")`
(lines 163-167). -/
def openai_build_tools (st : GSettings) (model : List Char)
    (reqTools : Option JVal) (messages : JVal) : Option JDict :=
  (openai_build_tools_prepop st model reqTools messages).map (fun tool =>
    if jTruthy ((dictGet tool "functionDeclarations").getD .null) then
      dictPop (dictPop (dictPop tool "googleSearch") "codeExecution") "urlContext"
    else tool)

/- ----------------------------------------------------------------------
GeminiResponseHandler (app/handler/response_handler.py).
`uploaderConfigured` is `is_image_upload_configured(settings)`;
`imageText` abstracts `_extract_image_data` (it uploads the inline image or
embeds it as a data URL and returns markdown text; its value never affects
the candidate structure); `ssl` is `settings.SHOW_SEARCH_LINK`.
---------------------------------------------------------------------- -/

/-- Python `str(v)` restricted to the string values that occur as grounding
titles and uris (non-strings never influence the candidate structure). -/
def pyStr : JVal → String
  | .str s => s
  | _ => ""

/-- A value of the tuple returned by `_extract_result`. -/
inductive PyVal where
  | str (s : String)
  | list (xs : List JVal)
  | opt (v : Option JVal)
  deriving Repr

/-- `_extract_tool_calls` (lines 173-190): the dict parts whose
`functionCall` value is a dict; total. -/
def extract_tool_calls : JVal → List JVal
  | .arr parts => parts.filter (fun part =>
      match part with
      | .obj pf =>
        match dictGet pf "functionCall" with
        | some (.obj _) => true
        | _ => false
      | _ => false)
  | _ => []

/-- `_add_search_link_text` (lines 242-257): with search links enabled, a
`-search` model and grounding chunks present, reference links are appended
to the text; `none` models an exception while traversing the grounding
metadata. -/
def add_search_link_text (ssl : Bool) (model : List Char) (candidate : JDict)
    (text : String) : Option String :=
  if ssl && decide ("-search".data <:+ model)
      && (dictGet candidate "groundingMetadata").isSome then do
    let gm := (dictGet candidate "groundingMetadata").getD .null
    let hasChunks ← pyContains "groundingChunks" gm
    if hasChunks then do
      let chunks ← pySubscript gm "groundingChunks"
      let items ← pyIter chunks
      items.foldlM (fun acc chunk => do
        let hw ← pyContains "web" chunk
        if hw then do
          let web ← pySubscript chunk "web"
          let t ← pySubscript web "title"
          let u ← pySubscript web "uri"
          pure (acc ++ "\n- [" ++ pyStr t ++ "](" ++ pyStr u ++ ")")
        else pure acc) (text ++ "\n\n---\n\n" ++ "**【引用来源】**\n\n")
    else pure text
  else pure text

/-- The body of the non-stream part loop (lines 92-98): a part containing
`"text"` appends its string (recording the first non-`None` `thought`), a
part containing `"inlineData"` appends the extracted image text.  `none`
models the exceptions of the unguarded `in`/subscript operations and of
`text += <non-string>`. -/
def partTextStep (imageText : JVal → String) (acc : String × Option JVal)
    (part : JVal) : Option (String × Option JVal) := do
  let ht ← pyContains "text" part
  if ht then do
    let tv ← pySubscript part "text"
    match tv with
    | .str s =>
      let hth ← pyContains "thought" part
      if hth && acc.2.isNone then
        match part with
        | .obj f =>
          pure (acc.1 ++ s,
            match dictGet f "thought" with
            | some .null => none
            | some v => some v
            | none => none)
        | _ => none
      else pure (acc.1 ++ s, acc.2)
    | _ => none
  else do
    let hi ← pyContains "inlineData" part
    if hi then pure (acc.1 ++ imageText part, acc.2)
    else pure acc

/-- The non-stream branch of `_extract_result` (lines 81-113).  It returns
the tuple `(text, tool_calls, thought)` — three values — as a `List PyVal`;
`none` models an exception escaping the traversal. -/
def extract_result_normal (ssl : Bool) (imageText : JVal → String)
    (model : List Char) (response : JDict) : Option (List PyVal) :=
  match dictGet response "candidates" with
  | some (.arr (c0 :: _)) => do
    let candidate ← (match c0 with
                     | .obj f => some f
                     | _ => none)
    let content := (dictGet candidate "content").getD (.obj [])
    let textThought ← (match content with
      | .obj cf =>
        if cf.isEmpty then some ("", none)
        else
          let parts := (dictGet cf "parts").getD (.arr [])
          if jTruthy parts then do
            let items ← pyIter parts
            items.foldlM (partTextStep imageText) ("", none)
          else some ("", none)
      | _ => some ("", none))
    let text ← add_search_link_text ssl model candidate textThought.1
    let content2 := (dictGet candidate "content").getD (.obj [])
    let parts2 ← (match content2 with
                  | .obj c2f => some ((dictGet c2f "parts").getD (.arr []))
                  | _ => none)
    let toolCalls := extract_tool_calls parts2
    pure [.str text, .list toolCalls, .opt textThought.2]
  | some v =>
    if jTruthy v then none
    else some [.str "暂无返回", .list [], .opt none]
  | none => some [.str "暂无返回", .list [], .opt none]

/-- `_has_inline_image_part` (lines 116-124) before its `except` clause. -/
def has_inline_image_part_core (response : JDict) : Option Bool := do
  let cands := (dictGet response "candidates").getD (.arr [])
  let cs ← pyIter cands
  cs.foldlM (fun found c => do
    if found then pure true
    else do
      let content ← (match c with
                     | .obj cf => some ((dictGet cf "content").getD (.obj []))
                     | _ => none)
      let parts ← (match content with
                   | .obj conf => some ((dictGet conf "parts").getD (.arr []))
                   | _ => none)
      let ps ← pyIter parts
      pure (ps.any (fun p => match p with
        | .obj pf => (dictGet pf "inlineData").isSome
        | _ => false))) false

/-- `_has_inline_image_part` (lines 116-124): any exception yields `False`. -/
def has_inline_image_part (response : JDict) : Bool :=
  (has_inline_image_part_core response).getD false

/-- `response["candidates"][0]["content"] = content` (line 231). -/
def setFirstCandidateContent (response : JDict) (content : JVal) : JDict :=
  match dictGet response "candidates" with
  | some (.arr (c0 :: rest)) =>
    dictInsert response "candidates"
      (.arr ((match c0 with
              | .obj f => JVal.obj (dictInsert f "content" content)
              | c => c) :: rest))
  | _ => response

/-- The content construction of `_handle_gemini_normal_response`
(lines 222-231), as it would run on an unpacked 4-tuple
`(text, reasoning_content, tool_calls, thought)`. -/
def build_normal_content (response : JDict) (t1 t2 t3 t4 : PyVal) : JDict :=
  let toolCalls := match t3 with | .list xs => xs | _ => []
  let thought := match t4 with | .opt v => v | _ => none
  let textStr := match t1 with | .str s => s | _ => ""
  let reasoning := match t2 with | .str s => s | _ => ""
  let parts : List JVal :=
    if !toolCalls.isEmpty then toolCalls
    else
      (match thought with
       | some th => [.obj [("text", .str reasoning), ("thought", th)]]
       | none => []) ++ [.obj [("text", .str textStr)]]
  setFirstCandidateContent response
    (.obj [("parts", .arr parts), ("role", .str "model")])

/-- `_handle_gemini_normal_response` (lines 212-232).  After the early
return for raw inline images, line 219 unpacks the return value of
`_extract_result` — a 3-tuple — into four names, which raises `ValueError`.
`none` models an exception escaping `_extract_result` itself. -/
def handle_gemini_normal_response (uploaderConfigured ssl : Bool)
    (imageText : JVal → String) (model : List Char) (response : JDict) :
    Option (Except PyExn JDict) :=
  if !uploaderConfigured && has_inline_image_part response then
    some (.ok response)
  else
    (extract_result_normal ssl imageText model response).map (fun t =>
      match t with
      | [t1, t2, t3, t4] => .ok (build_normal_content response t1 t2 t3 t4)
      | _ => .error .valueError)

/- ----------------------------------------------------------------------
_build_payload of the OpenAI dialect (openai_chat_service.py lines 213-268):
only the construction of `generationConfig` matters for C8.
---------------------------------------------------------------------- -/

/-- The fields of the pydantic `ChatRequest` read while building
`generationConfig`. -/
structure OAIReq where
  model : List Char
  temperature : JVal
  stop : JVal
  topP : JVal
  topK : JVal
  maxTokens : Option Int
  n : Option Int
  deriving Repr

/-- The configuration read while building `generationConfig`. -/
structure OASettings where
  thinkingBudgetMap : List (List Char × Int)
  showThinkingProcess : Bool
  deriving Repr

/-- The `generationConfig` dict built by `_build_payload` of the OpenAI
dialect (lines 219-256), including `_validate_and_set_max_tokens`
(lines 196-210).  Note `THINKING_BUDGET_MAP` is keyed by
`_get_real_model(request.model)` for the membership test but read at the
full `request.model` with default 1000. -/
def openai_generation_config (st : OASettings) (req : OAIReq) : JDict :=
  let gc : JDict := [("temperature", req.temperature), ("stopSequences", req.stop),
                     ("topP", req.topP), ("topK", req.topK)]
  let gc := match req.maxTokens with
            | some m => if m > 0 then dictInsert gc "maxOutputTokens" (.num m) else gc
            | none => gc
  let gc := match req.n with
            | some n => if n > 0 then dictInsert gc "candidateCount" (.num n) else gc
            | none => gc
  let gc := if "-image".data <:+ req.model ∨ "-image-generation".data <:+ req.model then
              dictInsert gc "responseModalities" (.arr [.str "Text", .str "Image"])
            else gc
  if "-non-thinking".data <:+ req.model then
    if "gemini-2.5-pro".data <:+: req.model then
      dictInsert gc "thinkingConfig" (.obj [("thinkingBudget", .num 128)])
    else
      dictInsert gc "thinkingConfig" (.obj [("thinkingBudget", .num 0)])
  else if st.thinkingBudgetMap.any (fun p => decide (p.1 = get_real_model req.model)) then
    let budget := ((st.thinkingBudgetMap.find? (fun p => decide (p.1 = req.model))).map (·.2)).getD 1000
    if st.showThinkingProcess then
      dictInsert gc "thinkingConfig"
        (.obj [("thinkingBudget", .num budget), ("includeThoughts", .bool true)])
    else
      dictInsert gc "thinkingConfig" (.obj [("thinkingBudget", .num budget)])
  else gc

/- ----------------------------------------------------------------------
Operation sequences on the global per-model limiter (C5).
---------------------------------------------------------------------- -/

/-- One call on the global limiter of a model: `reserve_tokens` at monotonic
time `now` with estimate `est`, or `adjust_token_count` correcting a
reservation of `est` to `actual`. -/
inductive GOp where
  | reserve (now est : Nat)
  | adjust (est actual : Nat)
  deriving DecidableEq, Repr

/-- Apply one operation to the limiter state (a raised
`RateLimitExceededError` leaves the state as `reserve_tokens` left it). -/
def applyGOp (g : GlobalLimiter) : GOp → GlobalLimiter
  | .reserve now est => (reserve_tokens g now est).1
  | .adjust est actual => adjust_token_count g est actual

/-- Run a sequence of global-limiter calls. -/
def runGlobal (g : GlobalLimiter) : List GOp → GlobalLimiter
  | [] => g
  | op :: ops => runGlobal (applyGOp g op) ops

/-- Total estimated tokens admitted by the successful reserves of `ops`. -/
def admittedTokens (g : GlobalLimiter) : List GOp → Nat
  | [] => 0
  | .reserve now est :: ops =>
    match reserve_tokens g now est with
    | (g', none) => est + admittedTokens g' ops
    | (g', some _) => admittedTokens g' ops
  | .adjust est actual :: ops =>
    admittedTokens (adjust_token_count g est actual) ops

/-- Every reserve of the sequence happens before the window starting at `ws`
with length `wsec` expires, so the window is never rolled. -/
def opsInWindow (ws wsec : Nat) : List GOp → Bool
  | [] => true
  | .reserve now _ :: ops => decide (now ≤ ws + wsec) && opsInWindow ws wsec ops
  | .adjust _ _ :: ops => opsInWindow ws wsec ops

/-- The sequence contains no adjust calls. -/
def noAdjust : List GOp → Bool
  | [] => true
  | .reserve _ _ :: ops => noAdjust ops
  | .adjust _ _ :: _ => false

/-- Ghost bookkeeping for the accounting invariant: the limiter state, the
estimates of the accepted reservations not yet adjusted, and the actuals of
the adjusted ones. -/
structure LedgerState where
  glob : GlobalLimiter
  outstanding : List Nat
  done : List Nat
  deriving DecidableEq, Repr

/-- Run a sequence of calls while tracking the ledger; an adjust whose
estimate does not match an outstanding accepted reservation of the current
window is not a legal caller behaviour and yields `none`. -/
def runLedger (s : LedgerState) : List GOp → Option LedgerState
  | [] => some s
  | .reserve now est :: ops =>
    match reserve_tokens s.glob now est with
    | (g', none) =>
      runLedger { s with glob := g', outstanding := s.outstanding ++ [est] } ops
    | (g', some _) => runLedger { s with glob := g' } ops
  | .adjust est actual :: ops =>
    if est ∈ s.outstanding then
      runLedger { glob := adjust_token_count s.glob est actual,
                  outstanding := s.outstanding.erase est,
                  done := s.done ++ [actual] } ops
    else none

/- ----------------------------------------------------------------------
Observation helpers and concrete fixtures used by the theorems below.
---------------------------------------------------------------------- -/

/-- The exception surfaced by the key-selection loop, if any. -/
def selErr : SelResult → Option PyExn
  | .selected _ => none
  | .raised e _ => some e

/-- The credentials on which the loop body actually ran, in order. -/
def selAttempts : SelResult → List String
  | .selected s => s.attempts
  | .raised _ s => s.attempts

/-- The outcome of the unary response handler: `none` when an exception
escaped `_extract_result`, `some none` on a normal return, `some (some e)`
when the handler body raised `e`. -/
def handlerOutcome (r : Option (Except PyExn JDict)) : Option (Option PyExn) :=
  r.map (fun e => match e with | .ok _ => none | .error ex => some ex)

/-- Two-key rotation for the C1 evaluation. -/
def c1NextKey : String → String :=
  fun k => if k = "AIzaKeyOne" then "AIzaKeyTwo" else "AIzaKeyOne"

/-- A limiter configured with `limit = 50000` in a fresh 60s window. -/
def c1Glob : GlobalLimiter :=
  { limit := 50000, windowSeconds := 60, windowStartTime := 0, tokenCount := 0 }

/-- An upstream unary response with one candidate carrying one text part. -/
def c2Response : JDict :=
  [("candidates", .arr [.obj [("content",
      .obj [("parts", .arr [.obj [("text", .str "hello")]])])]])]

/-- Converted history containing a `functionCall` part (an assistant
tool-call turn), as handed to the OpenAI-dialect `_build_tools`. -/
def c7Messages : JVal :=
  .arr [.obj [("role", .str "model"),
              ("parts", .arr [.obj [("functionCall",
                  .obj [("name", .str "get_weather")])]])]]

/-- Shaper configuration with the optional built-ins disabled. -/
def c7Settings : GSettings :=
  { toolsCodeExecutionEnabled := false, urlContextEnabled := false,
    urlContextModels := [] }

/-- A structured-output Gemini payload carrying one client function tool. -/
def c8Payload : JDict :=
  [("generationConfig", .obj [("responseMimeType", .str "application/json")]),
   ("tools", .obj [("functionDeclarations",
       .arr [.obj [("name", .str "get_weather")]])])]

/-- A mixed payload: Gemini contents plus OpenAI messages. -/
def c6Payload : JDict :=
  [("contents", .arr [.obj [("role", .str "user"),
      ("parts", .arr [.obj [("text", .str "\u4f60\u597d world")]])]]),
   ("messages", .arr [.obj [("role", .str "user"), ("content", .str "hi")]])]

/-- Limiter fixtures for the C5 evaluations: limit 10, fresh window. -/
def c5Glob0 : GlobalLimiter :=
  { limit := 10, windowSeconds := 60, windowStartTime := 0, tokenCount := 0 }

/-- The limiter after a successful reserve of 7 on `c5Glob0`. -/
def c5Glob7 : GlobalLimiter :=
  { limit := 10, windowSeconds := 60, windowStartTime := 0, tokenCount := 7 }

/-- The ledger after reserve 7 / adjust 7-to-3 from a fresh `c5Glob0`. -/
def c5Ledger3 : LedgerState :=
  { glob := { limit := 10, windowSeconds := 60, windowStartTime := 0,
                tokenCount := 3 },
    outstanding := [], done := [3] }

-- THEOREMS-BELOW (all definitions stay above this line)

/- ----------------------------------------------------------------------
Association-list lemmas.
---------------------------------------------------------------------- -/

theorem dictGet_dictInsert (d : JDict) (k k' : String) (v : JVal) :
    dictGet (dictInsert d k v) k' = if k = k' then some v else dictGet d k' := by
  induction d with
  | nil => simp [dictGet, dictInsert]
  | cons p rest ih =>
    obtain ⟨pk, pv⟩ := p
    by_cases hpk : pk = k
    · subst hpk
      by_cases h : pk = k' <;> simp [dictGet, dictInsert, h]
    · by_cases h2 : pk = k'
      · subst h2
        have hk : ¬(k = pk) := fun h => hpk h.symm
        simp [dictGet, dictInsert, hpk, hk]
      · simp [dictGet, dictInsert, hpk, h2, ih]

theorem dictGet_dictPop (d : JDict) (k k' : String) :
    dictGet (dictPop d k) k' = if k = k' then none else dictGet d k' := by
  induction d with
  | nil => simp [dictGet, dictPop]
  | cons p rest ih =>
    obtain ⟨pk, pv⟩ := p
    by_cases hpk : pk = k
    · subst hpk
      by_cases h : pk = k'
      · subst h
        simp [dictGet, dictPop, List.filter] at ih ⊢
        simpa using ih
      · simp only [dictPop, List.filter] at ih ⊢
        simp [dictGet, h, ih, dictPop] at ih ⊢
        simpa [dictPop, List.filter] using ih
    · by_cases h2 : pk = k'
      · subst h2
        have hk : ¬(k = pk) := fun h => hpk h.symm
        simp [dictGet, dictPop, List.filter, hpk, hk]
      · simp only [dictPop, List.filter] at ih ⊢
        simp [dictGet, dictPop, List.filter, hpk, h2] at ih ⊢
        simpa [dictPop, List.filter] using ih

theorem assocGet_assocSet (m : KeyUsageMap) (k k' : String) (v : KeyUsage) :
    assocGet (assocSet m k v) k' = if k = k' then some v else assocGet m k' := by
  induction m with
  | nil => simp [assocGet, assocSet]
  | cons p rest ih =>
    obtain ⟨pk, pv⟩ := p
    by_cases hpk : pk = k
    · subst hpk
      by_cases h : pk = k' <;> simp [assocGet, assocSet, h]
    · by_cases h2 : pk = k'
      · subst h2
        have hk : ¬(k = pk) := fun h => hpk h.symm
        simp [assocGet, assocSet, hpk, hk]
      · simp [assocGet, assocSet, hpk, h2, ih]

/- ----------------------------------------------------------------------
C1.
---------------------------------------------------------------------- -/

/-- C1: the claim states that a request whose estimate exceeds the global
limit makes `reserve_tokens` fail with `RequestTooLargeError` and that the
Gemini key-selection loop surfaces this immediately without trying further
credentials.  Evaluating the code: with limit 50000 and estimate 100000 the
oversize branch of `reserve_tokens` raises plain `RateLimitExceededError`
(rate_limit_handler.py line 92), and the selection loop therefore rotates
through both available keys (its `except RequestTooLargeError` fail-fast
clause never fires) before raising the generic all-keys-rate-limited error. -/
theorem C1_select_loop_rotates_on_oversize_request :
    reserve_tokens c1Glob 10 100000 = (c1Glob, some .rateLimitExceeded) ∧
    selErr (select_key_and_apply_rate_limits c1NextKey none [] c1Glob
        10 0 100000 2 "AIzaKeyOne") = some .rateLimitExceeded ∧
    selErr (select_key_and_apply_rate_limits c1NextKey none [] c1Glob
        10 0 100000 2 "AIzaKeyOne") ≠ some .requestTooLarge ∧
    selAttempts (select_key_and_apply_rate_limits c1NextKey none [] c1Glob
        10 0 100000 2 "AIzaKeyOne") = ["AIzaKeyOne", "AIzaKeyTwo"] := by
  decide

/- ----------------------------------------------------------------------
C2.
---------------------------------------------------------------------- -/

/-- C2: the claim states that the unary Gemini transform returns the
response with the first candidate's content replaced.  Evaluating the code
on a response with one candidate holding a single text part: line 219 of
response_handler.py unpacks the 3-tuple returned by `_extract_result` into
four names, so the handler raises `ValueError` instead of returning a
response. -/
theorem C2_normal_response_handler_raises_value_error :
    extract_result_normal false (fun _ => "") "gemini-2.5-flash".data c2Response
      = some [.str "hello", .list [], .opt none] ∧
    handlerOutcome (handle_gemini_normal_response false false (fun _ => "")
        "gemini-2.5-flash".data c2Response) = some (some .valueError) := by
  constructor <;> rfl

/- ----------------------------------------------------------------------
C3.
---------------------------------------------------------------------- -/

/-- C3: the claim states `check_and_reserve` raises `RateLimitExceededError`
whenever a configured cap would be exceeded, in particular for the RPD cap.
Evaluating the code with `rpd = 1`: the first call reserves normally; the
second call, with `rpd_count` at the cap, raises `AttributeError` (the RPD
branch evaluates `datetime.now()` on the `datetime` module,
rate_limit_handler.py line 252) — not `RateLimitExceededError` — while
leaving the counters unchanged. -/
theorem C3_rpd_branch_raises_attribute_error :
    check_and_reserve (some { rpm := none, tpm := none, rpd := some 1 })
        [] 0 0 "AIzaKey" 5 =
      ([("AIzaKey", { rpmCount := 1, rpmWindowStart := 0, tpmCount := 5,
                      rpdCount := 1, rpdDay := 0 })], none) ∧
    check_and_reserve (some { rpm := none, tpm := none, rpd := some 1 })
        [("AIzaKey", { rpmCount := 1, rpmWindowStart := 0, tpmCount := 5,
                       rpdCount := 1, rpdDay := 0 })] 0 0 "AIzaKey" 5 =
      ([("AIzaKey", { rpmCount := 1, rpmWindowStart := 0, tpmCount := 5,
                      rpdCount := 1, rpdDay := 0 })], some .attributeError) := by
  decide

/- ----------------------------------------------------------------------
C4: counterexample.
---------------------------------------------------------------------- -/

/-- C4 counterexample: the claim states that on *every* failing chat path an
upstream 429 containing "Resource has been exhausted" leaves the per-key
reservation in place.  On the Gemini unary path
(`generate_content`, gemini_chat_service.py line 372) the reservation is
released unconditionally: with such a failure the counters are decremented,
contradicting the claim. -/
theorem C4_counterexample_gemini_unary_releases_on_quota_429 :
    is_resource_exhausted_error 429
      "429 Resource has been exhausted (e.g. check quota)." = true ∧
    gemini_unary_failure_release
        (some { rpm := some 10, tpm := some 1000, rpd := some 100 })
        [("AIzaKey", { rpmCount := 1, rpmWindowStart := 0, tpmCount := 50,
                       rpdCount := 1, rpdDay := 0 })]
        "AIzaKey" 50 429 "429 Resource has been exhausted (e.g. check quota)." =
      [("AIzaKey", { rpmCount := 0, rpmWindowStart := 0, tpmCount := 0,
                     rpdCount := 0, rpdDay := 0 })] := by
  constructor <;> rfl

/- ----------------------------------------------------------------------
C5: counterexample.
---------------------------------------------------------------------- -/

/-- C5 counterexample: the claim states that within a single window the sum
of tokens admitted by successful reserves never exceeds the configured
limit.  With limit 10 the sequence reserve 10 / adjust-to-0 (the rollback a
failed call performs) / reserve 10 stays in one window yet admits 20
tokens. -/
theorem C5_counterexample_admitted_exceeds_limit :
    opsInWindow 0 60 [.reserve 0 10, .adjust 10 0, .reserve 0 10] = true ∧
    admittedTokens
        { limit := 10, windowSeconds := 60, windowStartTime := 0, tokenCount := 0 }
        [.reserve 0 10, .adjust 10 0, .reserve 0 10] = 20 ∧
    ¬(admittedTokens
        { limit := 10, windowSeconds := 60, windowStartTime := 0, tokenCount := 0 }
        [.reserve 0 10, .adjust 10 0, .reserve 0 10] ≤ 10) := by
  decide

/- ----------------------------------------------------------------------
C7: counterexample.
---------------------------------------------------------------------- -/

/-- C7 counterexample: the claim states that in either dialect a
`functionCall` part in the history suppresses the built-in tools.  In the
OpenAI dialect the final pop is guarded only by the accumulated
`functionDeclarations` (openai_chat_service.py line 164): with a tool-call
turn in the converted history, no request tools and a `-search` model, the
built `googleSearch` tool is retained. -/
theorem C7_counterexample_openai_keeps_google_search :
    has_function_call c7Messages = true ∧
    (openai_build_tools c7Settings "gemini-2.5-flash-search".data none
        c7Messages).map (fun d => (dictGet d "googleSearch").isSome)
      = some true := by
  constructor <;> rfl

/- ----------------------------------------------------------------------
C9: counterexample.
---------------------------------------------------------------------- -/

/-- C9 counterexample: the claim states every combination of the documented
suffixes is stripped back to the base name.  For the combined
`-search-non-thinking` suffix the code strips only `-non-thinking`
(the final 20-character branch of `_get_real_model` no longer sees
`-non-thinking` after the third strip), leaving `-search` attached. -/
theorem C9_counterexample_search_non_thinking :
    get_real_model "gemini-2.0-flash-search-non-thinking".data
      = "gemini-2.0-flash-search".data ∧
    get_real_model "gemini-2.0-flash-search-non-thinking".data
      ≠ "gemini-2.0-flash".data := by
  decide

/- ----------------------------------------------------------------------
List lemmas for the suffix-stripping analysis.
---------------------------------------------------------------------- -/

theorem suffix_append_iff_right (b s t : List Char) (h : s.length ≤ t.length) :
    s <:+ b ++ t ↔ s <:+ t := by
  constructor
  · rintro ⟨u, hu⟩
    have hlen : b.length ≤ u.length := by
      have hl := congrArg List.length hu
      simp only [List.length_append] at hl
      omega
    refine ⟨u.drop b.length, ?_⟩
    have hdrop := congrArg (List.drop b.length) hu
    rwa [List.drop_append_of_le_length hlen, List.drop_left] at hdrop
  · intro h'
    exact h'.trans (List.suffix_append b t)

theorem suffix_is_within {s l : List Char} (h : s <:+ l) : s <:+: l := by
  obtain ⟨u, rfl⟩ := h
  exact ⟨u, [], by simp⟩

theorem take_sub_append (b t : List Char) (n : Nat) (h : t.length = n) :
    (b ++ t).take ((b ++ t).length - n) = b := by
  have hl : (b ++ t).length - n = b.length := by
    simp only [List.length_append]
    omega
  rw [hl]
  exact List.take_left b t

/- ----------------------------------------------------------------------
C9: amended claim.
---------------------------------------------------------------------- -/

/-- C9 amended: for every base name, appending a single documented suffix
`-search`, `-image` or `-non-thinking` is undone by `_get_real_model`
(under the side conditions that the base does not itself end or contain the
other suffixes); but the documented `-image-generation` spelling is not
stripped at all, and the combined `-search-non-thinking` suffix is stripped
only of its `-non-thinking` half, so the returned name keeps `-search`. -/
theorem C9_get_real_model_amended :
    (∀ base : List Char, ¬("-image".data <:+ base) →
        ¬("-non-thinking".data <:+: base) →
        get_real_model (base ++ "-search".data) = base) ∧
    (∀ base : List Char, ¬("-search".data <:+ base ++ "-image".data) →
        ¬("-non-thinking".data <:+: base) →
        get_real_model (base ++ "-image".data) = base) ∧
    (∀ base : List Char, ¬("-search".data <:+: base) →
        get_real_model (base ++ "-non-thinking".data) = base) ∧
    (∀ base : List Char, ¬("-non-thinking".data <:+: base ++ "-search".data) →
        get_real_model (base ++ "-search-non-thinking".data)
          = base ++ "-search".data) ∧
    (∀ base : List Char, ¬("-non-thinking".data <:+: base ++ "-image-generation".data) →
        get_real_model (base ++ "-image-generation".data)
          = base ++ "-image-generation".data) := by
  refine ⟨?_, ?_, ?_, ?_, ?_⟩
  · intro base h1 h2
    have hs : "-search".data <:+ base ++ "-search".data := List.suffix_append _ _
    have h3 : ¬("-non-thinking".data <:+ base) :=
      fun h => h2 (suffix_is_within h)
    rw [get_real_model, strip_search, if_pos hs,
        take_sub_append base ("-search".data) 7 (by decide),
        strip_image, if_neg h1, strip_non_thinking, if_neg h3,
        strip_combined, if_neg (fun hc => h2 hc.2)]
  · intro base h1 h2
    have hs : "-image".data <:+ base ++ "-image".data := List.suffix_append _ _
    have h3 : ¬("-non-thinking".data <:+ base) :=
      fun h => h2 (suffix_is_within h)
    rw [get_real_model, strip_search, if_neg h1, strip_image, if_pos hs,
        take_sub_append base ("-image".data) 6 (by decide),
        strip_non_thinking, if_neg h3,
        strip_combined, if_neg (fun hc => h2 hc.2)]
  · intro base h1
    have hns : ¬("-search".data <:+ base ++ "-non-thinking".data) := by
      rw [suffix_append_iff_right base _ _ (by decide)]
      decide
    have hni : ¬("-image".data <:+ base ++ "-non-thinking".data) := by
      rw [suffix_append_iff_right base _ _ (by decide)]
      decide
    have hs : "-non-thinking".data <:+ base ++ "-non-thinking".data :=
      List.suffix_append _ _
    rw [get_real_model, strip_search, if_neg hns, strip_image, if_neg hni,
        strip_non_thinking, if_pos hs,
        take_sub_append base ("-non-thinking".data) 13 (by decide),
        strip_combined, if_neg (fun hc => h1 hc.1)]
  · intro base h1
    have hns : ¬("-search".data <:+ base ++ "-search-non-thinking".data) := by
      rw [suffix_append_iff_right base _ _ (by decide)]
      decide
    have hni : ¬("-image".data <:+ base ++ "-search-non-thinking".data) := by
      rw [suffix_append_iff_right base _ _ (by decide)]
      decide
    have hsd : "-search-non-thinking".data
        = "-search".data ++ "-non-thinking".data := by decide
    have hsplit : base ++ "-search-non-thinking".data
        = (base ++ "-search".data) ++ "-non-thinking".data := by
      rw [List.append_assoc]
      exact congrArg (fun l => base ++ l) hsd
    have hs : "-non-thinking".data <:+ base ++ "-search-non-thinking".data := by
      rw [hsplit]
      exact List.suffix_append _ _
    rw [get_real_model, strip_search, if_neg hns, strip_image, if_neg hni,
        strip_non_thinking, if_pos hs, hsplit,
        take_sub_append (base ++ "-search".data) ("-non-thinking".data) 13 (by decide),
        strip_combined, if_neg (fun hc => h1 hc.2)]
  · intro base h1
    have hns : ¬("-search".data <:+ base ++ "-image-generation".data) := by
      rw [suffix_append_iff_right base _ _ (by decide)]
      decide
    have hni : ¬("-image".data <:+ base ++ "-image-generation".data) := by
      rw [suffix_append_iff_right base _ _ (by decide)]
      decide
    have hnt : ¬("-non-thinking".data <:+ base ++ "-image-generation".data) :=
      fun h => h1 (suffix_is_within h)
    rw [get_real_model, strip_search, if_neg hns, strip_image, if_neg hni,
        strip_non_thinking, if_neg hnt,
        strip_combined, if_neg (fun hc => h1 hc.2)]

/-- Witness for C9 amended at the base name `gemini-2.5-flash`. -/
theorem C9_get_real_model_amended_witness :
    get_real_model ("gemini-2.5-flash".data ++ "-search".data)
      = "gemini-2.5-flash".data ∧
    get_real_model ("gemini-2.5-flash".data ++ "-image".data)
      = "gemini-2.5-flash".data ∧
    get_real_model ("gemini-2.5-flash".data ++ "-non-thinking".data)
      = "gemini-2.5-flash".data ∧
    get_real_model ("gemini-2.5-flash".data ++ "-search-non-thinking".data)
      = "gemini-2.5-flash".data ++ "-search".data ∧
    get_real_model ("gemini-2.5-flash".data ++ "-image-generation".data)
      = "gemini-2.5-flash".data ++ "-image-generation".data :=
  ⟨C9_get_real_model_amended.1 _ (by decide) (by decide),
   C9_get_real_model_amended.2.1 _ (by decide) (by decide),
   C9_get_real_model_amended.2.2.1 _ (by decide),
   C9_get_real_model_amended.2.2.2.1 _ (by decide),
   C9_get_real_model_amended.2.2.2.2 _ (by decide)⟩

/- ----------------------------------------------------------------------
C10.
---------------------------------------------------------------------- -/

/-- C10: in the Gemini unary key-selection loop, when `check_and_reserve`
succeeds for a credential (reserving rpm/tpm/rpd usage) and the subsequent
global `reserve_tokens` raises `RateLimitExceededError`, the loop iteration
moves on to the next credential without any `release` call: the rejected
credential's counters remain at their incremented values. -/
theorem C10_no_release_on_global_rate_limit
    (nextKey : String → String) (L : KeyLimits) (usage : KeyUsageMap)
    (glob glob' : GlobalLimiter) (now today est : Nat) (key : String)
    (tried attempts : List String) (u : KeyUsage)
    (hmem : key ∉ tried)
    (hget : assocGet usage key = some u)
    (hwin : now < u.rpmWindowStart + 60)
    (hday : u.rpdDay = today)
    (hrpm : (match L.rpm with
             | some r => decide (u.rpmCount ≥ r)
             | none => false) = false)
    (htpm : (match L.tpm with
             | some t => decide (u.tpmCount + est > t)
             | none => false) = false)
    (hrpd : (match L.rpd with
             | some d => decide (u.rpdCount ≥ d)
             | none => false) = false)
    (hres : reserve_tokens glob now est = (glob', some .rateLimitExceeded)) :
    select_key_step nextKey (some L) now today est
        ⟨key, tried, usage, glob, attempts⟩ =
      .more ⟨nextKey key, tried ++ [key],
             assocSet usage key
               { u with rpmCount := u.rpmCount + 1,
                        tpmCount := u.tpmCount + est,
                        rpdCount := u.rpdCount + 1 },
             glob', attempts ++ [key]⟩ ∧
    assocGet (assocSet usage key
        { u with rpmCount := u.rpmCount + 1,
                 tpmCount := u.tpmCount + est,
                 rpdCount := u.rpdCount + 1 }) key
      = some { u with rpmCount := u.rpmCount + 1,
                      tpmCount := u.tpmCount + est,
                      rpdCount := u.rpdCount + 1 } := by
  have hnw : ¬(now ≥ u.rpmWindowStart + 60) := by omega
  have hcheck : check_and_reserve (some L) usage now today key est =
      (assocSet usage key
        { u with rpmCount := u.rpmCount + 1,
                 tpmCount := u.tpmCount + est,
                 rpdCount := u.rpdCount + 1 }, none) := by
    simp only [check_and_reserve, hget, Option.getD, if_neg hnw, hday, ne_eq,
      not_true_eq_false, if_false, ite_self, if_neg (by simp : ¬(today ≠ today))]
    rw [hrpm, htpm, hrpd]
    simp
  constructor
  · simp only [select_key_step, if_neg hmem]
    rw [hcheck]
    simp only []
    rw [hres]
  · rw [assocGet_assocSet]
    simp

/-- Witness for C10: a key passing its per-key caps while the global window
is exhausted keeps its incremented counters when the loop rotates on. -/
theorem C10_no_release_on_global_rate_limit_witness :
    select_key_step (fun _ => "AIzaKeyTwo")
        (some { rpm := some 10, tpm := some 100000, rpd := some 1000 })
        6 7 50
        ⟨"AIzaKeyOne", [],
         [("AIzaKeyOne", { rpmCount := 2, rpmWindowStart := 5, tpmCount := 100,
                           rpdCount := 2, rpdDay := 7 })],
         { limit := 100, windowSeconds := 60, windowStartTime := 0,
           tokenCount := 60 }, []⟩ =
      .more ⟨"AIzaKeyTwo", [] ++ ["AIzaKeyOne"],
             assocSet [("AIzaKeyOne",
                 { rpmCount := 2, rpmWindowStart := 5, tpmCount := 100,
                   rpdCount := 2, rpdDay := 7 })] "AIzaKeyOne"
               { rpmCount := 2 + 1, rpmWindowStart := 5, tpmCount := 100 + 50,
                 rpdCount := 2 + 1, rpdDay := 7 },
             { limit := 100, windowSeconds := 60, windowStartTime := 0,
               tokenCount := 60 }, [] ++ ["AIzaKeyOne"]⟩ ∧
    assocGet (assocSet [("AIzaKeyOne",
        { rpmCount := 2, rpmWindowStart := 5, tpmCount := 100,
          rpdCount := 2, rpdDay := 7 })] "AIzaKeyOne"
          { rpmCount := 2 + 1, rpmWindowStart := 5, tpmCount := 100 + 50,
            rpdCount := 2 + 1, rpdDay := 7 }) "AIzaKeyOne"
      = some { rpmCount := 2 + 1, rpmWindowStart := 5, tpmCount := 100 + 50,
               rpdCount := 2 + 1, rpdDay := 7 } :=
  C10_no_release_on_global_rate_limit (fun _ => "AIzaKeyTwo")
    { rpm := some 10, tpm := some 100000, rpd := some 1000 }
    [("AIzaKeyOne", { rpmCount := 2, rpmWindowStart := 5, tpmCount := 100,
                      rpdCount := 2, rpdDay := 7 })]
    { limit := 100, windowSeconds := 60, windowStartTime := 0, tokenCount := 60 }
    { limit := 100, windowSeconds := 60, windowStartTime := 0, tokenCount := 60 }
    6 7 50 "AIzaKeyOne" [] []
    { rpmCount := 2, rpmWindowStart := 5, tpmCount := 100,
      rpdCount := 2, rpdDay := 7 }
    (by decide) (by decide) (by decide) (by decide) (by decide) (by decide)
    (by decide) (by decide)

/- ----------------------------------------------------------------------
C4: amended claim.
---------------------------------------------------------------------- -/

theorem release_found (limits : KeyLimits) (usage : KeyUsageMap) (key : String)
    (est : Nat) (u : KeyUsage) (hget : assocGet usage key = some u) :
    release (some limits) usage key est =
      assocSet usage key
        { u with rpmCount := u.rpmCount - 1, tpmCount := u.tpmCount - est,
                 rpdCount := u.rpdCount - 1 } := by
  simp [release, hget]

/-- C4 amended: for a model with configured per-key caps and a credential
with a usage record, the Gemini streaming path and the OpenAI-compatible
unary path keep the reservation exactly when the failure is an upstream 429
containing "Resource has been exhausted" and release it otherwise; the
Gemini unary path, the OpenAI chat unary path and the OpenAI-compatible
streaming path release the reservation on every failure. -/
theorem C4_release_behaviour_amended
    (limits : KeyLimits) (usage : KeyUsageMap) (key : String)
    (est status : Nat) (msg : String) (u : KeyUsage)
    (hget : assocGet usage key = some u) :
    (is_resource_exhausted_error status msg = true →
      gemini_stream_failure_release (some limits) usage key est status msg = usage ∧
      compat_unary_failure_release (some limits) usage key est status msg = usage) ∧
    (is_resource_exhausted_error status msg = false →
      gemini_stream_failure_release (some limits) usage key est status msg =
        assocSet usage key
          { u with rpmCount := u.rpmCount - 1, tpmCount := u.tpmCount - est,
                   rpdCount := u.rpdCount - 1 } ∧
      compat_unary_failure_release (some limits) usage key est status msg =
        assocSet usage key
          { u with rpmCount := u.rpmCount - 1, tpmCount := u.tpmCount - est,
                   rpdCount := u.rpdCount - 1 }) ∧
    gemini_unary_failure_release (some limits) usage key est status msg =
      assocSet usage key
        { u with rpmCount := u.rpmCount - 1, tpmCount := u.tpmCount - est,
                 rpdCount := u.rpdCount - 1 } ∧
    openai_unary_failure_release (some limits) usage key est status msg =
      assocSet usage key
        { u with rpmCount := u.rpmCount - 1, tpmCount := u.tpmCount - est,
                 rpdCount := u.rpdCount - 1 } ∧
    compat_stream_failure_release (some limits) usage key est status msg =
      assocSet usage key
        { u with rpmCount := u.rpmCount - 1, tpmCount := u.tpmCount - est,
                 rpdCount := u.rpdCount - 1 } := by
  have hrel := release_found limits usage key est u hget
  refine ⟨?_, ?_, ?_, ?_, ?_⟩
  · intro h
    constructor <;>
      simp [gemini_stream_failure_release, compat_unary_failure_release, h]
  · intro h
    constructor <;>
      simp [gemini_stream_failure_release, compat_unary_failure_release, h, hrel]
  · simpa [gemini_unary_failure_release] using hrel
  · simpa [openai_unary_failure_release] using hrel
  · simpa [compat_stream_failure_release] using hrel

/-- Witness for C4 amended: on a resource-exhausted 429 the streaming path
keeps the counters while the unary Gemini path decrements them. -/
theorem C4_release_behaviour_amended_witness :
    gemini_stream_failure_release
        (some { rpm := some 10, tpm := some 1000, rpd := some 100 })
        [("AIzaKey", { rpmCount := 1, rpmWindowStart := 0, tpmCount := 50,
                       rpdCount := 1, rpdDay := 0 })]
        "AIzaKey" 50 429 "429 Resource has been exhausted (e.g. check quota)."
      = [("AIzaKey", { rpmCount := 1, rpmWindowStart := 0, tpmCount := 50,
                       rpdCount := 1, rpdDay := 0 })] ∧
    gemini_unary_failure_release
        (some { rpm := some 10, tpm := some 1000, rpd := some 100 })
        [("AIzaKey", { rpmCount := 1, rpmWindowStart := 0, tpmCount := 50,
                       rpdCount := 1, rpdDay := 0 })]
        "AIzaKey" 50 429 "429 Resource has been exhausted (e.g. check quota)."
      = assocSet
          [("AIzaKey", { rpmCount := 1, rpmWindowStart := 0, tpmCount := 50,
                         rpdCount := 1, rpdDay := 0 })]
          "AIzaKey"
          { rpmCount := 1 - 1, rpmWindowStart := 0, tpmCount := 50 - 50,
            rpdCount := 1 - 1, rpdDay := 0 } :=
  ⟨((C4_release_behaviour_amended
      { rpm := some 10, tpm := some 1000, rpd := some 100 }
      [("AIzaKey", { rpmCount := 1, rpmWindowStart := 0, tpmCount := 50,
                     rpdCount := 1, rpdDay := 0 })]
      "AIzaKey" 50 429 "429 Resource has been exhausted (e.g. check quota)."
      { rpmCount := 1, rpmWindowStart := 0, tpmCount := 50,
        rpdCount := 1, rpdDay := 0 } (by decide)).1 (by decide)).1,
   (C4_release_behaviour_amended
      { rpm := some 10, tpm := some 1000, rpd := some 100 }
      [("AIzaKey", { rpmCount := 1, rpmWindowStart := 0, tpmCount := 50,
                     rpdCount := 1, rpdDay := 0 })]
      "AIzaKey" 50 429 "429 Resource has been exhausted (e.g. check quota)."
      { rpmCount := 1, rpmWindowStart := 0, tpmCount := 50,
        rpdCount := 1, rpdDay := 0 } (by decide)).2.2.1⟩

/- ----------------------------------------------------------------------
C7: amended claim.
---------------------------------------------------------------------- -/

theorem triple_pop_removes (tool : JDict) :
    dictGet (dictPop (dictPop (dictPop tool "googleSearch") "codeExecution")
        "urlContext") "googleSearch" = none ∧
    dictGet (dictPop (dictPop (dictPop tool "googleSearch") "codeExecution")
        "urlContext") "codeExecution" = none ∧
    dictGet (dictPop (dictPop (dictPop tool "googleSearch") "codeExecution")
        "urlContext") "urlContext" = none := by
  refine ⟨?_, ?_, ?_⟩
  · rw [dictGet_dictPop, if_neg (by decide : ¬("urlContext" = "googleSearch")),
      dictGet_dictPop, if_neg (by decide : ¬("codeExecution" = "googleSearch")),
      dictGet_dictPop, if_pos rfl]
  · rw [dictGet_dictPop, if_neg (by decide : ¬("urlContext" = "codeExecution")),
      dictGet_dictPop, if_pos rfl]
  · rw [dictGet_dictPop, if_pos rfl]

theorem triple_pop_keeps_fd (tool : JDict) :
    dictGet (dictPop (dictPop (dictPop tool "googleSearch") "codeExecution")
        "urlContext") "functionDeclarations"
      = dictGet tool "functionDeclarations" := by
  rw [dictGet_dictPop, if_neg (by decide), dictGet_dictPop, if_neg (by decide),
    dictGet_dictPop, if_neg (by decide)]

/-- C7 amended: in the Gemini dialect, a truthy assembled
`functionDeclarations` or any `functionCall` part in the history removes
`googleSearch`, `codeExecution` and `urlContext` from the built tool record;
in the OpenAI dialect the removal is triggered only by a truthy accumulated
`functionDeclarations` — a `functionCall` part in the converted history
alone does not suppress the built-ins. -/
theorem C7_tool_suppression_amended :
    (∀ (st : GSettings) (model : List Char) (payload : JDict) (d : JDict),
      gemini_build_tools st model payload = some d →
      (jTruthy ((dictGet d "functionDeclarations").getD .null) = true ∨
        has_function_call ((dictGet payload "contents").getD (.arr [])) = true) →
      dictGet d "googleSearch" = none ∧
      dictGet d "codeExecution" = none ∧
      dictGet d "urlContext" = none) ∧
    (∀ (st : GSettings) (model : List Char) (reqTools : Option JVal)
        (messages : JVal) (d : JDict),
      openai_build_tools st model reqTools messages = some d →
      jTruthy ((dictGet d "functionDeclarations").getD .null) = true →
      dictGet d "googleSearch" = none ∧
      dictGet d "codeExecution" = none ∧
      dictGet d "urlContext" = none) := by
  constructor
  · intro st model payload d hbuild hcond
    obtain ⟨tool, hpre, hd⟩ := Option.map_eq_some'.mp hbuild
    have hfd : dictGet d "functionDeclarations" = dictGet tool "functionDeclarations" := by
      by_cases hc : gemini_pop_cond payload tool = true
      · rw [← hd, if_pos hc]
        exact triple_pop_keeps_fd tool
      · rw [← hd, if_neg hc]
    have hcond' : gemini_pop_cond payload tool = true := by
      rcases hcond with h | h
      · rw [hfd] at h
        simp [gemini_pop_cond, h]
      · simp [gemini_pop_cond, h]
    rw [← hd, if_pos hcond']
    exact triple_pop_removes tool
  · intro st model reqTools messages d hbuild hcond
    obtain ⟨tool, hpre, hd⟩ := Option.map_eq_some'.mp hbuild
    have hfd : dictGet d "functionDeclarations" = dictGet tool "functionDeclarations" := by
      by_cases hc : jTruthy ((dictGet tool "functionDeclarations").getD .null) = true
      · rw [← hd, if_pos hc]
        exact triple_pop_keeps_fd tool
      · rw [← hd, if_neg hc]
    have hcond' : jTruthy ((dictGet tool "functionDeclarations").getD .null) = true := by
      rw [hfd] at hcond
      exact hcond
    rw [← hd, if_pos hcond']
    exact triple_pop_removes tool

/-- Witness for C7 amended: a Gemini request with one client-declared
function keeps its declaration but none of the built-in tools. -/
theorem C7_tool_suppression_amended_witness :
    dictGet [("functionDeclarations",
        JVal.arr [.obj [("name", .str "get_weather")]])] "googleSearch" = none ∧
    dictGet [("functionDeclarations",
        JVal.arr [.obj [("name", .str "get_weather")]])] "codeExecution" = none ∧
    dictGet [("functionDeclarations",
        JVal.arr [.obj [("name", .str "get_weather")]])] "urlContext" = none :=
  C7_tool_suppression_amended.1 c7Settings "gemini-2.5-flash".data
    [("tools", .obj [("functionDeclarations",
        .arr [.obj [("name", .str "get_weather")]])])]
    [("functionDeclarations", JVal.arr [.obj [("name", .str "get_weather")]])]
    (by rfl) (Or.inl (by rfl))

/- ----------------------------------------------------------------------
C8.
---------------------------------------------------------------------- -/

theorem dictPop_preserves_none {d : JDict} {k k' : String}
    (h : dictGet d k = none) : dictGet (dictPop d k') k = none := by
  by_cases hk : k' = k
  · rw [dictGet_dictPop, if_pos hk]
  · rw [dictGet_dictPop, if_neg hk]
    exact h

theorem merge_binding_absent {record : JDict} {k1 : String} {v : JVal}
    {k : String} {rec' : JDict} (hk : k1 ≠ k)
    (hfd : "functionDeclarations" ≠ k) (h0 : dictGet record k = none)
    (h : merge_binding record k1 v = some rec') : dictGet rec' k = none := by
  unfold merge_binding at h
  split at h
  · split at h
    · split at h
      · cases h
        rw [dictGet_dictInsert, if_neg hk]
        exact h0
      · split at h
        · cases h
          rw [dictGet_dictInsert, if_neg hfd]
          exact h0
        · cases h
    · cases h
      rw [dictGet_dictInsert, if_neg hk]
      exact h0
  · cases h
    rw [dictGet_dictInsert, if_neg hk]
    exact h0

theorem merge_fields_absent {k : String} (hfd : "functionDeclarations" ≠ k) :
    ∀ (fields : List (String × JVal)) (record rec' : JDict),
      dictGet record k = none → dictGet fields k = none →
      merge_fields record fields = some rec' → dictGet rec' k = none := by
  intro fields
  induction fields with
  | nil =>
    intro record rec' h0 _ h
    cases h
    exact h0
  | cons kv rest ih =>
    intro record rec' h0 hfields h
    obtain ⟨k1, v1⟩ := kv
    have hk1 : k1 ≠ k := by
      by_contra hc
      rw [dictGet, if_pos hc] at hfields
      cases hfields
    have hrest : dictGet rest k = none := by
      rwa [dictGet, if_neg hk1] at hfields
    simp only [merge_fields, Option.bind_eq_bind, Option.bind_eq_some] at h
    obtain ⟨record', hb, hrec⟩ := h
    exact ih record' rec' (merge_binding_absent hk1 hfd h0 hb) hrest hrec

theorem merge_items_absent {k : String} (hfd : "functionDeclarations" ≠ k) :
    ∀ (items : List JVal) (record rec' : JDict),
      dictGet record k = none →
      (∀ item ∈ items, ∀ fields, item = JVal.obj fields →
        dictGet fields k = none) →
      merge_items record items = some rec' → dictGet rec' k = none := by
  intro items
  induction items with
  | nil =>
    intro record rec' h0 _ h
    cases h
    exact h0
  | cons item rest ih =>
    intro record rec' h0 habs h
    have habs' : ∀ item' ∈ rest, ∀ fields, item' = JVal.obj fields →
        dictGet fields k = none :=
      fun it hit => habs it (List.mem_cons_of_mem _ hit)
    match item with
    | .obj fields =>
      have hf : dictGet fields k = none :=
        habs (.obj fields) (List.mem_cons_self _ _) fields rfl
      have h' : (if fields.isEmpty then merge_items record rest
          else (merge_fields record fields).bind
            (fun record' => merge_items record' rest)) = some rec' := h
      by_cases he : fields.isEmpty
      · rw [if_pos he] at h'
        exact ih record rec' h0 habs' h'
      · rw [if_neg he] at h'
        simp only [Option.bind_eq_some] at h'
        obtain ⟨record', hmf, hrec⟩ := h'
        exact ih record' rec'
          (merge_fields_absent hfd fields record record' h0 hf hmf) habs' hrec
    | .null => exact ih record rec' h0 habs' h
    | .bool b => exact ih record rec' h0 habs' h
    | .num nn => exact ih record rec' h0 habs' h
    | .str ss => exact ih record rec' h0 habs' h
    | .arr xs => exact ih record rec' h0 habs' h

theorem geminiMergeStage_absent {k : String} {payload : JDict} {rec' : JDict}
    (hfd : "functionDeclarations" ≠ k)
    (habs : ∀ item ∈ toolItems payload, ∀ fields, item = JVal.obj fields →
      dictGet fields k = none)
    (h : geminiMergeStage payload = some rec') : dictGet rec' k = none := by
  unfold geminiMergeStage at h
  split at h
  · cases h
    rfl
  · exact merge_items_absent hfd (toolItems payload) [] rec' rfl habs h

theorem prepop_of_structured (st : GSettings) (model : List Char)
    {payload : JDict} (h : is_structured_output_request payload = true) :
    gemini_build_tools_prepop st model payload = geminiMergeStage payload := by
  simp [gemini_build_tools_prepop, h]

/-- C8: structured-output requests get no built-in tool attached.  In the
Gemini dialect, when `responseMimeType` is `application/json` the shaper
skips all three built-in tools, so any of `googleSearch`, `codeExecution`,
`urlContext` can appear in the built tool record only if a client-supplied
tools item already contained that key — if no client item mentions it, it is
absent.  In the OpenAI dialect the built `generationConfig` never contains
`responseMimeType` at all, so the premise of the claim never holds there. -/
theorem C8_structured_output_no_builtin_tools :
    (∀ (st : GSettings) (model : List Char) (payload : JDict) (d : JDict)
        (k : String),
      gemini_build_tools st model payload = some d →
      is_structured_output_request payload = true →
      (k = "googleSearch" ∨ k = "codeExecution" ∨ k = "urlContext") →
      (∀ item ∈ toolItems payload, ∀ fields, item = JVal.obj fields →
        dictGet fields k = none) →
      dictGet d k = none) ∧
    (∀ (st : OASettings) (req : OAIReq),
      dictGet (openai_generation_config st req) "responseMimeType" = none) := by
  constructor
  · intro st model payload d k hbuild hstruct hk habs
    obtain ⟨tool, hpre, hd⟩ := Option.map_eq_some'.mp hbuild
    rw [prepop_of_structured st model hstruct] at hpre
    have hfd : "functionDeclarations" ≠ k := by
      rcases hk with rfl | rfl | rfl <;> decide
    have htool : dictGet tool k = none := geminiMergeStage_absent hfd habs hpre
    rw [← hd]
    split
    · exact dictPop_preserves_none
        (dictPop_preserves_none (dictPop_preserves_none htool))
    · exact htool
  · intro st req
    obtain ⟨model, temperature, stop, topP, topK, maxTokens, n⟩ := req
    unfold openai_generation_config
    cases maxTokens <;> cases n <;> dsimp only [] <;> split_ifs <;>
      simp [dictGet_dictInsert, dictGet]

/-- Witness for C8: a structured-output request whose client tools carry no
built-in key yields a tool record without `googleSearch`, and a concrete
OpenAI request whose generated config carries no `responseMimeType`. -/
theorem C8_structured_output_no_builtin_tools_witness :
    dictGet [("functionDeclarations",
        JVal.arr [.obj [("name", JVal.str "get_weather")]])] "googleSearch"
      = none ∧
    dictGet (openai_generation_config ⟨[], false⟩
        ⟨"gemini-2.5-flash".data, .null, .null, .null, .null, none, none⟩)
      "responseMimeType" = none :=
  ⟨C8_structured_output_no_builtin_tools.1 c7Settings "gemini-2.5-flash".data
      c8Payload
      [("functionDeclarations", JVal.arr [.obj [("name", JVal.str "get_weather")]])]
      "googleSearch" (by rfl) (by rfl) (Or.inl rfl)
      (by
        intro item hitem fields heq
        have ht : toolItems c8Payload
            = [JVal.obj [("functionDeclarations",
                JVal.arr [.obj [("name", JVal.str "get_weather")]])]] := rfl
        rw [ht, List.mem_singleton] at hitem
        subst hitem
        cases heq
        rfl),
   C8_structured_output_no_builtin_tools.2 ⟨[], false⟩
      ⟨"gemini-2.5-flash".data, .null, .null, .null, .null, none, none⟩⟩

/- ----------------------------------------------------------------------
C6.
---------------------------------------------------------------------- -/

theorem foldl_add_weight (w : Char → Nat) (l : List Char) :
    ∀ a : Nat, l.foldl (fun acc c => acc + w c) a = a + (l.map w).sum := by
  induction l with
  | nil => intro a; simp
  | cons c rest ih =>
    intro a
    simp only [List.foldl, List.map, List.sum_cons, ih]
    omega

theorem weight_sum_eq (l : List Char) :
    (l.map (fun c => if is_cjk c then 4 else 1)).sum
      = 4 * (l.filter is_cjk).length + (l.filter (fun c => !is_cjk c)).length := by
  induction l with
  | nil => simp
  | cons c rest ih =>
    by_cases h : is_cjk c = true <;>
      simp [List.filter, h, ih] <;> omega

theorem textQuarters_eq (s : String) :
    textQuarters s = 4 * cjkCount s + otherCount s := by
  unfold textQuarters cjkCount otherCount
  rw [foldl_add_weight]
  simpa using weight_sum_eq s.data

theorem partsListQuarters_eq (ps : List JVal) :
    partsListQuarters ps = ((specPartsTexts ps).map textQuarters).sum := by
  induction ps with
  | nil => simp [partsListQuarters, specPartsTexts]
  | cons p rest ih =>
    cases p with
    | obj f =>
      cases hf : dictGet f "text" with
      | none => simp [partsListQuarters, specPartsTexts, List.foldr, hf, ih]
      | some v =>
        cases v <;>
          simp [partsListQuarters, specPartsTexts, List.foldr, hf, ih]
    | null => simp [partsListQuarters, specPartsTexts, List.foldr, ih]
    | bool b => simp [partsListQuarters, specPartsTexts, List.foldr, ih]
    | num nn => simp [partsListQuarters, specPartsTexts, List.foldr, ih]
    | str ss => simp [partsListQuarters, specPartsTexts, List.foldr, ih]
    | arr xs => simp [partsListQuarters, specPartsTexts, List.foldr, ih]

theorem partsValQuarters_eq (v : JVal) :
    partsValQuarters v = ((specPartsValTexts v).map textQuarters).sum := by
  cases v <;> simp [partsValQuarters, specPartsValTexts, partsListQuarters_eq]

theorem contentsListQuarters_eq (items : List JVal) :
    contentsListQuarters items
      = (((items.foldr (fun item acc => specContentTexts item ++ acc) []).map
          textQuarters).sum) := by
  induction items with
  | nil => simp [contentsListQuarters]
  | cons item rest ih =>
    simp only [contentsListQuarters, List.foldr, List.map_append,
      List.sum_append, ih]
    congr 1
    cases item with
    | obj f =>
      simp only [specContentTexts]
      exact partsValQuarters_eq _
    | null => simp [specContentTexts]
    | bool b => simp [specContentTexts]
    | num nn => simp [specContentTexts]
    | str ss => simp [specContentTexts]
    | arr xs => simp [specContentTexts]

theorem contentsQuarters_eq (v : Option JVal) :
    contentsQuarters v = ((specContentsTexts v).map textQuarters).sum := by
  cases v with
  | none => simp [contentsQuarters, specContentsTexts]
  | some x =>
    cases x <;>
      simp [contentsQuarters, specContentsTexts, contentsListQuarters_eq]

theorem requestsListQuarters_eq (items : List JVal)
    (h : shapedRequestsItems items = true) :
    requestsListQuarters items
      = some (((items.foldr (fun item acc => specRequestTexts item ++ acc)
          []).map textQuarters).sum) := by
  induction items with
  | nil => simp [requestsListQuarters]
  | cons item rest ih =>
    rw [shapedRequestsItems, List.all_cons, Bool.and_eq_true] at h
    obtain ⟨hitem, hrest⟩ := h
    have ih' := ih hrest
    cases item with
    | obj f =>
      have hitem' : (match (dictGet f "content").getD (JVal.obj []) with
          | JVal.obj _ => true
          | _ => false) = true := hitem
      cases hc : (dictGet f "content").getD (.obj []) with
      | obj cf =>
        simp [requestsListQuarters, hc, ih', specRequestTexts,
          partsValQuarters_eq]
      | null => rw [hc] at hitem'; cases hitem'
      | bool b => rw [hc] at hitem'; cases hitem'
      | num nn => rw [hc] at hitem'; cases hitem'
      | str ss => rw [hc] at hitem'; cases hitem'
      | arr xs => rw [hc] at hitem'; cases hitem'
    | null => simp [requestsListQuarters, ih', specRequestTexts]
    | bool b => simp [requestsListQuarters, ih', specRequestTexts]
    | num nn => simp [requestsListQuarters, ih', specRequestTexts]
    | str ss => simp [requestsListQuarters, ih', specRequestTexts]
    | arr xs => simp [requestsListQuarters, ih', specRequestTexts]

theorem requestsQuarters_eq (v : Option JVal)
    (h : (match v with
          | some (.arr items) => shapedRequestsItems items
          | _ => true) = true) :
    requestsQuarters v
      = some (((specRequestsTexts v).map textQuarters).sum) := by
  cases v with
  | none => simp [requestsQuarters, specRequestsTexts]
  | some x =>
    cases x with
    | arr items =>
      simpa [requestsQuarters, specRequestsTexts] using
        requestsListQuarters_eq items h
    | null => simp [requestsQuarters, specRequestsTexts]
    | bool b => simp [requestsQuarters, specRequestsTexts]
    | num nn => simp [requestsQuarters, specRequestsTexts]
    | str ss => simp [requestsQuarters, specRequestsTexts]
    | obj f => simp [requestsQuarters, specRequestsTexts]

theorem msgPartsQuarters_eq (ps : List JVal)
    (h : ps.all (fun p => match p with
        | JVal.obj _ => true
        | _ => false) = true) :
    msgPartsQuarters ps
      = some (((specMsgPartsTexts ps).map textQuarters).sum) := by
  induction ps with
  | nil => simp [msgPartsQuarters, specMsgPartsTexts]
  | cons p rest ih =>
    rw [List.all_cons, Bool.and_eq_true] at h
    obtain ⟨hp, hrest⟩ := h
    have ih' := ih hrest
    cases p with
    | obj pf =>
      cases hty : (match dictGet pf "type" with
          | some (.str ty) => decide (ty = "text")
          | _ => false) with
      | false =>
        simp [msgPartsQuarters, specMsgPartsTexts, hty, ih',
          List.foldr]
      | true =>
        cases htx : dictGet pf "text" with
        | none =>
          simp [msgPartsQuarters, specMsgPartsTexts, hty, htx, ih', List.foldr]
        | some v =>
          cases v <;>
            simp [msgPartsQuarters, specMsgPartsTexts, hty, htx, ih',
              List.foldr]
    | null => cases hp
    | bool b => cases hp
    | num nn => cases hp
    | str ss => cases hp
    | arr xs => cases hp

theorem messagesListQuarters_eq (items : List JVal)
    (h : shapedMessagesItems items = true) :
    messagesListQuarters items
      = some (((items.foldr (fun m acc => specMessageTexts m ++ acc) []).map
          textQuarters).sum) := by
  induction items with
  | nil => simp [messagesListQuarters]
  | cons m rest ih =>
    rw [shapedMessagesItems, List.all_cons, Bool.and_eq_true] at h
    obtain ⟨hm, hrest⟩ := h
    have ih' := ih hrest
    cases m with
    | obj f =>
      cases hc : dictGet f "content" with
      | none => simp [messagesListQuarters, hc, ih', specMessageTexts]
      | some v =>
        cases v with
        | str s =>
          simp [messagesListQuarters, hc, ih', specMessageTexts,
            textQuarters_eq]
        | arr ps =>
          have hm' : (match dictGet f "content" with
              | some (JVal.arr ps) => ps.all (fun p => match p with
                  | JVal.obj _ => true
                  | _ => false)
              | _ => true) = true := hm
          rw [hc] at hm'
          simp [messagesListQuarters, hc, ih', specMessageTexts,
            msgPartsQuarters_eq ps hm']
        | null => simp [messagesListQuarters, hc, ih', specMessageTexts]
        | bool b => simp [messagesListQuarters, hc, ih', specMessageTexts]
        | num nn => simp [messagesListQuarters, hc, ih', specMessageTexts]
        | obj g => simp [messagesListQuarters, hc, ih', specMessageTexts]
    | null => simp [messagesListQuarters, ih', specMessageTexts]
    | bool b => simp [messagesListQuarters, ih', specMessageTexts]
    | num nn => simp [messagesListQuarters, ih', specMessageTexts]
    | str ss => simp [messagesListQuarters, ih', specMessageTexts]
    | arr xs => simp [messagesListQuarters, ih', specMessageTexts]

theorem messagesQuarters_eq (v : Option JVal)
    (h : (match v with
          | some (.arr items) => shapedMessagesItems items
          | _ => true) = true) :
    messagesQuarters v
      = some (((specMessagesTexts v).map textQuarters).sum) := by
  cases v with
  | none => simp [messagesQuarters, specMessagesTexts]
  | some x =>
    cases x with
    | arr items =>
      simpa [messagesQuarters, specMessagesTexts] using
        messagesListQuarters_eq items h
    | null => simp [messagesQuarters, specMessagesTexts]
    | bool b => simp [messagesQuarters, specMessagesTexts]
    | num nn => simp [messagesQuarters, specMessagesTexts]
    | str ss => simp [messagesQuarters, specMessagesTexts]
    | obj f => simp [messagesQuarters, specMessagesTexts]

/-- C6: on every payload of either dialect shape, `estimate_payload_tokens`
returns exactly `max 1 ⌊S⌋`, where `S` sums — over every text-bearing field
of the payload — one token per CJK character (U+4E00..U+9FFF) and a quarter
token per other character (in exact quarter-token units,
`⌊S⌋ = (Σ (4·cjk + other)) / 4`); in particular the result is ≥ 1. -/
theorem C6_estimate_payload_tokens (payload : JDict)
    (h : dialect_shaped payload = true) :
    estimate_payload_tokens payload = some (max 1 (specFloorS payload)) ∧
    ∀ n, estimate_payload_tokens payload = some n → 1 ≤ n := by
  rw [dialect_shaped, Bool.and_eq_true] at h
  obtain ⟨hr, hm⟩ := h
  have hreq := requestsQuarters_eq (dictGet payload "requests") hr
  have hmsg := messagesQuarters_eq (dictGet payload "messages") hm
  have hcont := contentsQuarters_eq (dictGet payload "contents")
  have hmain : estimate_payload_tokens payload
      = some (max 1 (specFloorS payload)) := by
    have hw : textQuarters = fun t => 4 * cjkCount t + otherCount t :=
      funext textQuarters_eq
    rw [estimate_payload_tokens]
    rw [hreq, hmsg]
    simp only [Option.bind_eq_bind, Option.some_bind, Option.pure_def]
    rw [hcont]
    simp only [specFloorS, specTexts, List.map_append, List.sum_append, hw]
    rw [Nat.max_comm]
  exact ⟨hmain, fun n hn => by
    rw [hmain] at hn
    cases hn
    exact Nat.le_max_left 1 _⟩

/-- Witness for C6 at a concrete mixed payload (two CJK characters plus
eight other characters: 16 quarter tokens, i.e. an estimate of 4). -/
theorem C6_estimate_payload_tokens_witness :
    dialect_shaped c6Payload = true ∧
    estimate_payload_tokens c6Payload = some (max 1 (specFloorS c6Payload)) ∧
    estimate_payload_tokens c6Payload = some 4 :=
  ⟨by decide, (C6_estimate_payload_tokens c6Payload (by decide)).1, by decide⟩

/- ----------------------------------------------------------------------
C5: amended claim.
---------------------------------------------------------------------- -/

theorem roll_window_in_window {g : GlobalLimiter} {now : Nat}
    (h : now ≤ g.windowStartTime + g.windowSeconds) :
    roll_window g now = g := by
  unfold roll_window
  rw [if_neg (by omega)]

theorem reserve_tokens_le_limit {g g' : GlobalLimiter} {now est : Nat}
    (h : reserve_tokens g now est = (g', none)) :
    g'.tokenCount ≤ (g'.limit : Int) := by
  unfold reserve_tokens at h
  split at h
  · simp at h
  · split at h
    · simp at h
    · rename_i hle
      simp only [Prod.mk.injEq] at h
      obtain ⟨hg, -⟩ := h
      rw [← hg]
      simpa using not_lt.mp hle

theorem reserve_fail_in_window {g g' : GlobalLimiter} {now est : Nat}
    {e : PyExn} (hw : now ≤ g.windowStartTime + g.windowSeconds)
    (h : reserve_tokens g now est = (g', some e)) : g' = g := by
  unfold reserve_tokens at h
  rw [roll_window_in_window hw] at h
  split at h
  · simp only [Prod.mk.injEq] at h
    exact h.1.symm
  · split at h
    · simp only [Prod.mk.injEq] at h
      exact h.1.symm
    · simp at h

theorem reserve_ok_in_window {g g' : GlobalLimiter} {now est : Nat}
    (hw : now ≤ g.windowStartTime + g.windowSeconds)
    (h : reserve_tokens g now est = (g', none)) :
    g' = { g with tokenCount := g.tokenCount + est } ∧
    g.tokenCount + est ≤ (g.limit : Int) := by
  unfold reserve_tokens at h
  rw [roll_window_in_window hw] at h
  split at h
  · simp at h
  · split at h
    · simp at h
    · rename_i hle
      simp only [Prod.mk.injEq] at h
      exact ⟨h.1.symm, not_lt.mp hle⟩

theorem roll_window_nonneg {g : GlobalLimiter} {now : Nat}
    (h : 0 ≤ g.tokenCount) : 0 ≤ (roll_window g now).tokenCount := by
  unfold roll_window
  split
  · simp
  · exact h

theorem runGlobal_nonneg (ops : List GOp) :
    ∀ g : GlobalLimiter, 0 ≤ g.tokenCount →
      0 ≤ (runGlobal g ops).tokenCount := by
  induction ops with
  | nil => intro g h; exact h
  | cons op rest ih =>
    intro g h
    rw [runGlobal]
    apply ih
    cases op with
    | reserve now est =>
      simp only [applyGOp]
      unfold reserve_tokens
      split
      · exact h
      · split
        · exact roll_window_nonneg h
        · have hr := @roll_window_nonneg g now h
          simp only []
          positivity
    | adjust est actual =>
      simp only [applyGOp]
      unfold adjust_token_count
      split
      · exact h
      · simp

theorem runLedger_invariant (ops : List GOp) :
    ∀ s s' : LedgerState,
      opsInWindow s.glob.windowStartTime s.glob.windowSeconds ops = true →
      s.glob.tokenCount = (s.outstanding.sum : Int) + (s.done.sum : Int) →
      runLedger s ops = some s' →
      s'.glob.tokenCount = (s'.outstanding.sum : Int) + (s'.done.sum : Int) ∧
      s'.glob.windowStartTime = s.glob.windowStartTime ∧
      s'.glob.windowSeconds = s.glob.windowSeconds := by
  induction ops with
  | nil =>
    intro s s' _ hinv hrun
    cases hrun
    exact ⟨hinv, rfl, rfl⟩
  | cons op rest ih =>
    intro s s' hwin hinv hrun
    cases op with
    | reserve now est =>
      rw [opsInWindow, Bool.and_eq_true, decide_eq_true_eq] at hwin
      obtain ⟨hnow, hrest⟩ := hwin
      rw [runLedger] at hrun
      rcases hres : reserve_tokens s.glob now est with ⟨g', e⟩
      rw [hres] at hrun
      cases e with
      | none =>
        obtain ⟨hg', hle⟩ := reserve_ok_in_window hnow hres
        have := ih { s with glob := g', outstanding := s.outstanding ++ [est] }
          s' (by simpa [hg'] using hrest)
          (by
            rw [hg']
            simp only [List.sum_append, List.sum_cons, List.sum_nil]
            omega)
          hrun
        simpa [hg'] using this
      | some ex =>
        have hg' : g' = s.glob := reserve_fail_in_window hnow hres
        have := ih { s with glob := g' } s' (by simpa [hg'] using hrest)
          (by rw [hg']; exact hinv) hrun
        simpa [hg'] using this
    | adjust est actual =>
      rw [opsInWindow] at hwin
      rw [runLedger] at hrun
      split at hrun
      · rename_i hmem
        have hsum : est + (s.outstanding.erase est).sum = s.outstanding.sum :=
          ((List.perm_cons_erase hmem).sum_eq).symm
        have hest_le : est ≤ s.outstanding.sum :=
          List.single_le_sum (fun _ _ => Nat.zero_le _) est hmem
        have hpos : (0 : Int) ≤ s.glob.tokenCount + ((actual : Int) - (est : Int)) := by
          rw [hinv]
          omega
        have hadj : (adjust_token_count s.glob est actual).tokenCount
            = ((s.outstanding.erase est).sum : Int) +
              ((s.done ++ [actual]).sum : Int) := by
          unfold adjust_token_count
          split
          · rename_i hz
            rw [hinv]
            simp only [List.sum_append, List.sum_cons, List.sum_nil]
            omega
          · simp only [List.sum_append, List.sum_cons, List.sum_nil]
            rw [max_eq_right hpos, hinv]
            omega
        have hws : (adjust_token_count s.glob est actual).windowStartTime
            = s.glob.windowStartTime := by
          unfold adjust_token_count
          split <;> rfl
        have hwsec : (adjust_token_count s.glob est actual).windowSeconds
            = s.glob.windowSeconds := by
          unfold adjust_token_count
          split <;> rfl
        have := ih { glob := adjust_token_count s.glob est actual,
                     outstanding := s.outstanding.erase est,
                     done := s.done ++ [actual] } s'
          (by simpa [hws, hwsec] using hwin)
          (by simpa using hadj)
          hrun
        simpa [hws, hwsec] using this
      · cases hrun

theorem admitted_no_adjust (ops : List GOp) :
    ∀ g : GlobalLimiter,
      opsInWindow g.windowStartTime g.windowSeconds ops = true →
      noAdjust ops = true →
      (runGlobal g ops).tokenCount
        = g.tokenCount + (admittedTokens g ops : Int) ∧
      (runGlobal g ops).tokenCount ≤ max g.tokenCount (g.limit : Int) := by
  induction ops with
  | nil =>
    intro g _ _
    constructor
    · simp [runGlobal, admittedTokens]
    · exact le_max_left _ _
  | cons op rest ih =>
    intro g hwin hnoadj
    cases op with
    | reserve now est =>
      rw [opsInWindow, Bool.and_eq_true, decide_eq_true_eq] at hwin
      obtain ⟨hnow, hrest⟩ := hwin
      rw [noAdjust] at hnoadj
      rcases hres : reserve_tokens g now est with ⟨g', e⟩
      cases e with
      | some ex =>
        have hg' : g' = g := reserve_fail_in_window hnow hres
        have hrun : runGlobal g (.reserve now est :: rest) = runGlobal g rest := by
          rw [runGlobal]
          simp [applyGOp, hres, hg']
        have hadm : admittedTokens g (.reserve now est :: rest)
            = admittedTokens g rest := by
          rw [admittedTokens, hres]
          rw [hg']
        rw [hrun, hadm]
        exact ih g hrest hnoadj
      | none =>
        obtain ⟨hg', hle⟩ := reserve_ok_in_window hnow hres
        have hrun : runGlobal g (.reserve now est :: rest)
            = runGlobal { g with tokenCount := g.tokenCount + est } rest := by
          rw [runGlobal]
          simp [applyGOp, hres, hg']
        have hadm : admittedTokens g (.reserve now est :: rest)
            = est + admittedTokens { g with tokenCount := g.tokenCount + est } rest := by
          rw [admittedTokens, hres]
          rw [hg']
        obtain ⟨iha, ihb⟩ :=
          ih { g with tokenCount := g.tokenCount + est } hrest hnoadj
        constructor
        · rw [hrun, hadm, iha]
          simp only []
          push_cast
          ring
        · rw [hrun]
          have ihb' : (runGlobal { g with tokenCount := g.tokenCount + est }
              rest).tokenCount ≤ max (g.tokenCount + est) (g.limit : Int) := ihb
          refine le_trans ihb' ?_
          rw [max_eq_right hle]
          exact le_max_right _ _
    | adjust est actual => cases hnoadj

/-- C5 amended: (1) immediately after every successful `reserve_tokens` the
counter is at most the configured limit; (2) the counter never becomes
negative; (3) for every in-window run in which each adjust corrects an
outstanding accepted reservation, the counter equals the sum of outstanding
estimates plus adjusted actuals — which is its own clamp `max 0 (...)`, so
the clamp never engages; (4) in an in-window, adjust-free run starting from
a fresh window, the sum of tokens admitted by successful reserves is at most
the limit.  (Without the adjust-free restriction (4) is false: see the
counterexample, where a rollback adjust frees budget for further reserves.) -/
theorem C5_global_limiter_amended :
    (∀ (g g' : GlobalLimiter) (now est : Nat),
      reserve_tokens g now est = (g', none) →
      g'.tokenCount ≤ (g'.limit : Int)) ∧
    (∀ (g : GlobalLimiter) (ops : List GOp),
      0 ≤ g.tokenCount → 0 ≤ (runGlobal g ops).tokenCount) ∧
    (∀ (ops : List GOp) (s s' : LedgerState),
      opsInWindow s.glob.windowStartTime s.glob.windowSeconds ops = true →
      s.glob.tokenCount = (s.outstanding.sum : Int) + (s.done.sum : Int) →
      runLedger s ops = some s' →
      s'.glob.tokenCount = (s'.outstanding.sum : Int) + (s'.done.sum : Int) ∧
      s'.glob.tokenCount
        = max 0 ((s'.outstanding.sum : Int) + (s'.done.sum : Int))) ∧
    (∀ (g : GlobalLimiter) (ops : List GOp),
      opsInWindow g.windowStartTime g.windowSeconds ops = true →
      noAdjust ops = true → g.tokenCount = 0 →
      (admittedTokens g ops : Int) ≤ (g.limit : Int)) := by
  refine ⟨?_, ?_, ?_, ?_⟩
  · intro g g' now est h
    exact reserve_tokens_le_limit h
  · intro g ops h
    exact runGlobal_nonneg ops g h
  · intro ops s s' hwin hinv hrun
    obtain ⟨hc, -, -⟩ := runLedger_invariant ops s s' hwin hinv hrun
    refine ⟨hc, ?_⟩
    rw [hc, max_eq_right (by positivity)]
  · intro g ops hwin hnoadj hz
    obtain ⟨ha, hb⟩ := admitted_no_adjust ops g hwin hnoadj
    rw [hz] at ha hb
    rw [ha] at hb
    rw [max_eq_right (Int.natCast_nonneg g.limit)] at hb
    omega

/-- Witness for C5 amended at concrete runs on a limiter with limit 10. -/
theorem C5_global_limiter_amended_witness :
    (c5Glob7.tokenCount ≤ (c5Glob7.limit : Int)) ∧
    (0 ≤ (runGlobal c5Glob0 [.reserve 0 7, .adjust 7 0]).tokenCount) ∧
    (c5Ledger3.glob.tokenCount
      = (c5Ledger3.outstanding.sum : Int) + (c5Ledger3.done.sum : Int)) ∧
    ((admittedTokens c5Glob0 [.reserve 0 7, .reserve 0 6] : Int)
      ≤ (c5Glob0.limit : Int)) :=
  ⟨C5_global_limiter_amended.1 c5Glob0 c5Glob7 0 7 (by decide),
   C5_global_limiter_amended.2.1 c5Glob0 [.reserve 0 7, .adjust 7 0] (by decide),
   (C5_global_limiter_amended.2.2.1 [.reserve 0 7, .adjust 7 3]
      { glob := c5Glob0, outstanding := [], done := [] } c5Ledger3
      (by decide) (by decide) (by rfl)).1,
   C5_global_limiter_amended.2.2.2 c5Glob0 [.reserve 0 7, .reserve 0 6]
      (by decide) (by decide) (by decide)⟩
